import Mathlib

/-!
Verification of the `securedgram-psk-aes-node` DTLS 1.0 client against its
natural-language specification.

The JavaScript sources are shallowly embedded: Node `Buffer`s become
`List Nat` (one entry per octet), fallible code returns `Except JsError` or
`Option`, and the external crypto-primitive library (AES-CBC, HMAC-SHA1,
MD5, SHA1, CSPRNG) — an out-of-scope collaborator in the specification — is
a parameter record of pure functions.  Each definition carries a comment
naming the source location it embeds.
-/

namespace SecuredDgram

/-- A Node `Buffer` / `Uint8Array`: a list of octet values. -/
abbrev Bytes := List Nat

/-- The JavaScript exception classes thrown by the modelled code paths. -/
inductive JsError
  | typeError
  | rangeError
  | referenceError
deriving DecidableEq, Repr

/-! ## Byte-level serialization primitives (Node `Buffer` read/write) -/

/-- `buffer.writeUIntBE(value, offset, width)`: the `width` big-endian bytes
of `value` (most significant first); each byte is reduced mod 256, matching
the on-wire truncation of over-wide values. -/
def writeUIntBE (value : Nat) : Nat → Bytes
  | 0 => []
  | w + 1 => writeUIntBE (value / 256) w ++ [value % 256]

/-- `buffer.writeUInt16BE(value, offset)`. -/
def writeUInt16BE (value : Nat) : Bytes := writeUIntBE value 2

/-- Big-endian accumulation of a byte list into a natural number. -/
def readNat (l : Bytes) : Nat := l.foldl (fun acc b => acc * 256 + b) 0

/-- `buffer.readUIntBE(offset, width)` (and `readUInt16BE` at `width = 2`). -/
def readUIntBE (buffer : Bytes) (offset width : Nat) : Nat :=
  readNat ((buffer.drop offset).take width)

/-- JavaScript `Buffer.prototype.slice` index clamping: a negative index is
relative to the end of the buffer, a non-negative one is clamped to the
length. -/
def jsSliceIdx (len : Nat) (t : Int) : Nat :=
  if t < 0 then ((len : Int) + t).toNat else min t.toNat len

/-- JavaScript `buffer.slice(s, e)` with (possibly negative) integer
arguments. -/
def jsSlice (l : Bytes) (s e : Int) : Bytes :=
  (l.take (jsSliceIdx l.length e)).drop (jsSliceIdx l.length s)

/-! ## Enumerations (`src/enums.js`) -/

/-- `enums.BulkEncryptionAlgorithm` (`enums.js`). -/
inductive BulkEncryptionAlgorithm
  | null
  | aes128cbc
  | aes256cbc
deriving DecidableEq, Repr

/-- `enums.MacAlgorithm` (`enums.js`). -/
inductive MacAlgorithm
  | null
  | sha1
deriving DecidableEq, Repr

/-- `enums.getBulkAlgorithmBlockSize` (`enums.js`). -/
def getBulkAlgorithmBlockSize : BulkEncryptionAlgorithm → Nat
  | .aes128cbc => 16
  | .aes256cbc => 16
  | .null => 1

/-- `enums.getBulkAlgorithmKeySize` (`enums.js`). -/
def getBulkAlgorithmKeySize : BulkEncryptionAlgorithm → Nat
  | .aes128cbc => 16
  | .aes256cbc => 32
  | .null => 0

/-- `enums.getMacAlgorithmHashSize` (`enums.js`). -/
def getMacAlgorithmHashSize : MacAlgorithm → Nat
  | .sha1 => 20
  | .null => 0

/-- `enums.ProtocolType` member values (`enums.js`). -/
def ProtocolType.changeCipherSpec : Nat := 0x14

def ProtocolType.alert : Nat := 0x15

def ProtocolType.handshake : Nat := 0x16

def ProtocolType.applicationData : Nat := 0x17

/-- `enums.isProtocolTypeValid` (`enums.js`). -/
def isProtocolTypeValid (t : Nat) : Bool :=
  t == 0x14 || t == 0x15 || t == 0x16 || t == 0x17

/-- The DTLS 1.0 version constant `enums.DtlsVersion.DTLS_1_0`. -/
def DtlsVersion.dtls10 : Nat := 0xfeff

/-- `enums.isDtlsVersionValid` (`enums.js`). -/
def isDtlsVersionValid (v : Nat) : Bool := v == 0xfeff

/-- `enums.SessionState` members (`enums.js`): the frozen object defines
only `NotConnected`, `ClientHelloSent` and `FinishedSent`.  A JavaScript
property read is modelled as `Option Nat`, `none` standing for
`undefined`. -/
def SessionState.notConnected : Option Nat := some 0

def SessionState.clientHelloSent : Option Nat := some 1

def SessionState.finishedSent : Option Nat := some 2

/-- The property read `enums.SessionState.Connected` performed by
`DtlsSession` (`src/unnamed/part_001`).  `enums.SessionState` declares no
`Connected` member, so the read yields JavaScript `undefined`. -/
def SessionState.connectedRead : Option Nat := none

/-- `enums.MessageType` member values (`enums.js`). -/
def MessageType.clientHello : Nat := 0x01

def MessageType.serverHello : Nat := 0x02

def MessageType.helloVerifyRequest : Nat := 0x03

def MessageType.serverHelloDone : Nat := 0x0e

def MessageType.clientKeyExchange : Nat := 0x10

def MessageType.finished : Nat := 0x14

/-- `enums.isMessageTypeValid` (`enums.js`). -/
def isMessageTypeValid (t : Nat) : Bool :=
  t == 0x01 || t == 0x02 || t == 0x03 || t == 0x0e || t == 0x10 || t == 0x14

/-- `enums.isAlertLevelValid` (`enums.js`): `Warning = 1`, `Fatal = 2`. -/
def isAlertLevelValid (level : Nat) : Bool := level == 1 || level == 2

/-- `enums.isAlertDescriptionValid` (`enums.js`): only `CloseNotify = 0`
and `BadRecordMac = 20` are declared. -/
def isAlertDescriptionValid (description : Nat) : Bool :=
  description == 0 || description == 20

/-! ## External crypto primitives

The specification places the symmetric crypto library outside the system
boundary ("treated as external collaborators").  The record layer and
handshake engine are therefore parametrised by a record of pure functions;
`encrypt`/`decrypt` take key, IV and data, the HMACs take key and data. -/

/-- The Node `crypto` primitives consumed by the repository. -/
structure CryptoPrimitives where
  encrypt : Bytes → Bytes → Bytes → Bytes
  decrypt : Bytes → Bytes → Bytes → Bytes
  hmacSha1 : Bytes → Bytes → Bytes
  hmacMd5 : Bytes → Bytes → Bytes
  md5 : Bytes → Bytes
  sha1 : Bytes → Bytes

/-! ## Record layer (`src/DtlsRecord.js`) -/

/-- A `DtlsRecord` object (`DtlsRecord.js`). -/
structure DtlsRecord where
  protocolType : Nat
  dtlsVersion : Nat
  epoch : Nat
  sequenceNumber : Nat
  fragment : Bytes
deriving DecidableEq, Repr

/-- `DtlsRecord.createFromPlaintext` (`DtlsRecord.js` lines 57-99): field
validation followed by construction.  The `typeof`/shape checks of the
source cannot fail for the modelled argument types and are omitted; the
range checks are kept. -/
def dtlsRecordCreateFromPlaintext (type dtlsVersion epoch sequenceNumber : Nat)
    (fragment : Bytes) : Except JsError DtlsRecord :=
  if ¬ isProtocolTypeValid type then .error .rangeError
  else if ¬ isDtlsVersionValid dtlsVersion then .error .rangeError
  else if epoch > 2 ^ 16 - 1 then .error .rangeError
  else if sequenceNumber > 2 ^ 48 - 1 then .error .rangeError
  else if fragment.length > 16384 then .error .rangeError
  else .ok ⟨type, dtlsVersion, epoch, sequenceNumber, fragment⟩

/-- `buildBufferForMacCalculation` (`DtlsRecord.js` lines 338-363):
`epoch(2) ∥ seq(6) ∥ type(1) ∥ version(2) ∥ fragment_len(2) ∥ fragment`. -/
def buildBufferForMacCalculation (epoch sequenceNumber protocolType dtlsVersion : Nat)
    (fragment : Bytes) : Bytes :=
  writeUInt16BE epoch ++ writeUIntBE sequenceNumber 6 ++ [protocolType % 256] ++
    writeUInt16BE dtlsVersion ++ writeUInt16BE fragment.length ++ fragment

/-- `buildBufferForEncryption` (`DtlsRecord.js` lines 365-386):
`fragment ∥ MAC ∥ padding ∥ padLen`, padded to a whole number of cipher
blocks.  `Math.ceil(nonPaddedLength / paddingBlockSize)` on exact float
division equals the rounding-up natural division used here; `Buffer.fill`
and element assignment store the value mod 256. -/
def buildBufferForEncryption (fragment macHash : Bytes) (paddingBlockSize : Nat) : Bytes :=
  let nonPaddedLength := fragment.length + macHash.length + 1
  let numBlocks := (nonPaddedLength + paddingBlockSize - 1) / paddingBlockSize
  let paddedLength := numBlocks * paddingBlockSize
  let paddingLength := paddedLength - nonPaddedLength
  fragment ++ macHash ++ List.replicate paddingLength (paddingLength % 256) ++
    [paddingLength % 256]

/-- `DtlsRecord.prototype.toEncryptedBuffer` (`DtlsRecord.js` lines
264-336).  The CSPRNG-drawn IV is the `randomIV` parameter.  The
`macAlgorithm` argument is accepted, as in the source, but the source
always computes the record MAC with HMAC-SHA1. -/
def toEncryptedBuffer (C : CryptoPrimitives) (r : DtlsRecord)
    (bulkEncryptionAlgorithm : BulkEncryptionAlgorithm) (blockEncryptionKey : Bytes)
    (macAlgorithm : MacAlgorithm) (macSecret : Bytes) (randomIV : Bytes) : Bytes :=
  match bulkEncryptionAlgorithm, macAlgorithm with
  | .null, _ =>
    [r.protocolType % 256] ++ writeUInt16BE r.dtlsVersion ++ writeUInt16BE r.epoch ++
      writeUIntBE r.sequenceNumber 6 ++ writeUInt16BE r.fragment.length ++ r.fragment
  | alg, _ =>
    let bufferForMacCalculation :=
      buildBufferForMacCalculation r.epoch r.sequenceNumber r.protocolType r.dtlsVersion
        r.fragment
    let macHash := C.hmacSha1 macSecret bufferForMacCalculation
    let bufferForEncryption :=
      buildBufferForEncryption r.fragment macHash (getBulkAlgorithmBlockSize alg)
    let ciphertext := C.encrypt blockEncryptionKey randomIV bufferForEncryption
    [r.protocolType % 256] ++ writeUInt16BE r.dtlsVersion ++ writeUInt16BE r.epoch ++
      writeUIntBE r.sequenceNumber 6 ++ writeUInt16BE (ciphertext.length + randomIV.length) ++
      randomIV ++ ciphertext

/-- The MAC-hash comparison loop of `fromEncryptedBuffer` (`DtlsRecord.js`
lines 238-242): iterate `i` from `0` to `macHashLength - 1`, OR-ing a
mismatch flag; the second component counts the inspected indices.  An
out-of-range JavaScript index read yields `undefined`, modelled by
`List.get?` returning `none`. -/
def macHashCompareTrace (macHashVerify macHash : Bytes) (macHashLength : Nat) :
    Bool × Nat :=
  (List.range macHashLength).foldl
    (fun acc i => (acc.1 || decide (macHashVerify.get? i ≠ macHash.get? i), acc.2 + 1))
    (false, 0)

/-- The post-decrypt verification of `fromEncryptedBuffer` (`DtlsRecord.js`
lines 200-245): padding inspection, MAC recomputation and full-length MAC
comparison over the decrypted `compressedtext`.  Returns
`(paddingError, macHashError, compressedtextWithoutMacOrPadding)`; both
flags are always computed, mirroring the source's constant-time intent. -/
def verifyCompressedtext (C : CryptoPrimitives) (macAlgorithm : MacAlgorithm)
    (macSecret : Bytes) (epoch sequenceNumber protocolType dtlsVersion : Nat)
    (compressedtext : Bytes) : Bool × Bool × Bytes :=
  let paddingLength := compressedtext.getLastD 0
  let paddingError : Bool :=
    if paddingLength + 1 > compressedtext.length then true
    else
      ((List.range (paddingLength + 1)).map (fun k => compressedtext.length - 1 - k)).any
        (fun i => compressedtext.getD i 0 ≠ paddingLength)
  let macHashLength := getMacAlgorithmHashSize macAlgorithm
  let fragmentBound : Int :=
    (compressedtext.length : Int) - paddingLength - 1 - macHashLength
  let compressedtextWithoutMacOrPadding := jsSlice compressedtext 0 fragmentBound
  let macHash :=
    jsSlice compressedtext fragmentBound ((compressedtext.length : Int) - paddingLength - 1)
  let bufferForMacCalculation :=
    buildBufferForMacCalculation epoch sequenceNumber protocolType dtlsVersion
      compressedtextWithoutMacOrPadding
  let macHashVerify := C.hmacSha1 macSecret bufferForMacCalculation
  let macHashError := (macHashCompareTrace macHashVerify macHash macHashLength).1
  (paddingError, macHashError, compressedtextWithoutMacOrPadding)

/-- The ciphertext decryption performed by `fromEncryptedBuffer`
(`DtlsRecord.js` lines 165-196), exposed standalone: IV and ciphertext are
cut out of the record body and decrypted. -/
def parsedPlaintext (C : CryptoPrimitives) (buffer : Bytes) (offset : Nat)
    (bulkEncryptionAlgorithm : BulkEncryptionAlgorithm) (blockEncryptionKey : Bytes) :
    Bytes :=
  let randomIVLength :=
    if bulkEncryptionAlgorithm = .null then 0
    else getBulkAlgorithmBlockSize bulkEncryptionAlgorithm
  let ciphertextLength := readUIntBE buffer (offset + 11) 2
  let randomIV := (buffer.drop (offset + 13)).take randomIVLength
  let ciphertext :=
    (buffer.drop (offset + 13 + randomIVLength)).take (ciphertextLength - randomIVLength)
  C.decrypt blockEncryptionKey randomIV ciphertext

/-- `DtlsRecord.fromEncryptedBuffer` (`DtlsRecord.js` lines 103-262).
`none` models the JavaScript `null` return (incomplete record, malformed
IV/ciphertext split, or MAC/padding failure); a successful parse returns
the record and `bytesConsumed`.  The argument-validation throws of the
source (`offset` ≥ length, non-buffer input) cannot arise at this model's
call sites and are not modelled. -/
def fromEncryptedBuffer (C : CryptoPrimitives) (buffer : Bytes) (offset : Nat)
    (bulkEncryptionAlgorithm : BulkEncryptionAlgorithm) (blockEncryptionKey : Bytes)
    (macAlgorithm : MacAlgorithm) (macSecret : Bytes) : Option (DtlsRecord × Nat) :=
  if buffer.length - offset < 13 then none
  else
    let randomIVLength :=
      if bulkEncryptionAlgorithm = .null then 0
      else getBulkAlgorithmBlockSize bulkEncryptionAlgorithm
    let protocolType := buffer.getD offset 0
    let dtlsVersion := readUIntBE buffer (offset + 1) 2
    let epoch := readUIntBE buffer (offset + 3) 2
    let sequenceNumber := readUIntBE buffer (offset + 5) 6
    let ciphertextLength := readUIntBE buffer (offset + 11) 2
    if buffer.length - (offset + 13) < ciphertextLength then none
    else if randomIVLength < ciphertextLength then
      let randomIV := (buffer.drop (offset + 13)).take randomIVLength
      let innerLength := ciphertextLength - randomIVLength
      let bytesConsumed := 13 + randomIVLength + innerLength
      let ciphertext := (buffer.drop (offset + 13 + randomIVLength)).take innerLength
      if bulkEncryptionAlgorithm = .null ∨ randomIV.length = 0 then
        some (⟨protocolType, dtlsVersion, epoch, sequenceNumber, ciphertext⟩, bytesConsumed)
      else
        let compressedtext := C.decrypt blockEncryptionKey randomIV ciphertext
        if compressedtext.length = 0 then none
        else
          let v :=
            verifyCompressedtext C macAlgorithm macSecret epoch sequenceNumber protocolType
              dtlsVersion compressedtext
          if v.2.1 = true then none
          else if v.1 = true then none
          else
            some (⟨protocolType, dtlsVersion, epoch, sequenceNumber, v.2.2⟩, bytesConsumed)
    else none

/-! ## Message codecs (`src/messages/…`) -/

/-- A `DtlsAlertMessage` object (`DtlsAlertMessage.js`, second document of
`src/helpers/SerializationHelper.js`). -/
structure DtlsAlertMessage where
  level : Nat
  description : Nat
deriving DecidableEq, Repr

/-- `DtlsAlertMessage.create` (`SerializationHelper.js` lines 91-109):
validates the level and description against the enums. -/
def dtlsAlertCreate (level description : Nat) : Except JsError DtlsAlertMessage :=
  if ¬ isAlertLevelValid level then .error .rangeError
  else if ¬ isAlertDescriptionValid description then .error .rangeError
  else .ok ⟨level, description⟩

/-- `DtlsAlertMessage.prototype.fromBuffer` (`SerializationHelper.js` lines
113-158), success path: two bytes, level then description. -/
def dtlsAlertFromBuffer (buffer : Bytes) (offset : Nat) : Option (DtlsAlertMessage × Nat) :=
  if buffer.length - offset < 2 then none
  else some (⟨buffer.getD offset 0, buffer.getD (offset + 1) 0⟩, 2)

/-- `DtlsAlertMessage.prototype.toBuffer` (`SerializationHelper.js` lines
160-177).  The body allocates `result = Buffer.alloc(2)` and then executes
`buffer[offset] = level`: both `buffer` and `level` are undeclared
identifiers (the fields are `this.level` / `this.description`, the buffer
is `result`), so the statement raises a `ReferenceError` for every
instance. -/
def dtlsAlertToBuffer (_ : DtlsAlertMessage) : Except JsError Bytes :=
  .error .referenceError

/-- A `ClientHelloMessage` object (`src/unnamed/part_005`).  `null`
session-id and cookie are `none`. -/
structure ClientHelloMessage where
  dtlsVersion : Nat
  random : Bytes
  sessionId : Option Bytes
  cookie : Option Bytes
  cipherSuites : List Nat
  compressionMethods : List Nat
deriving DecidableEq, Repr

/-- `ClientHelloMessage.create` (`src/unnamed/part_005` lines 54-112).  The
validation of a non-null cookie evaluates
`cookie.length > enums.getMaximumCookieLength(version)`, but the function's
parameter is named `dtlsVersion`: the identifier `version` is undeclared,
so the argument evaluation raises a `ReferenceError` for every non-null
cookie, of any length. -/
def clientHelloCreate (dtlsVersion : Nat) (random : Bytes) (sessionId cookie : Option Bytes)
    (cipherSuites compressionMethods : List Nat) : Except JsError ClientHelloMessage :=
  if ¬ isDtlsVersionValid dtlsVersion then .error .rangeError
  else if random.length ≠ 32 then .error .rangeError
  else if (sessionId.getD []).length > 255 then .error .rangeError
  else
    match cookie with
    | some _ => .error .referenceError
    | none =>
      if compressionMethods.length = 0 then .error .rangeError
      else .ok ⟨dtlsVersion, random, sessionId, cookie, cipherSuites, compressionMethods⟩

/-- `ClientHelloMessage.prototype.toBuffer` (`src/unnamed/part_005` lines
114-198).  With a non-null session id the length computation adds
`this.sessionId.Length` (capital `L`, an undefined property), so
`bufferLength` becomes `NaN` and `Buffer.alloc` throws; the repository only
ever serializes with `sessionId = null`. -/
def clientHelloToBuffer (m : ClientHelloMessage) : Except JsError Bytes :=
  match m.sessionId with
  | some _ => .error .typeError
  | none =>
    .ok (writeUInt16BE m.dtlsVersion ++ m.random ++ [0] ++
      (match m.cookie with
       | none => [0]
       | some c => [c.length % 256] ++ c) ++
      writeUInt16BE (m.cipherSuites.length * 2) ++
      (m.cipherSuites.map writeUInt16BE).flatten ++
      [m.compressionMethods.length % 256] ++ m.compressionMethods.map (· % 256))

/-- A `DtlsHandshakeRecord` object (`DtlsHandshakeMessage.js`). -/
structure DtlsHandshakeRecord where
  messageType : Nat
  length : Nat
  messageSequence : Nat
  fragmentOffset : Nat
  fragmentLength : Nat
  message : Bytes
deriving DecidableEq, Repr

/-- `DtlsHandshakeMessage.createFromMessageBuffer`
(`DtlsHandshakeMessage.js` lines 51-111): range validation of every header
field. -/
def dtlsHandshakeCreateFromMessageBuffer (type length messageSequence fragmentOffset
    fragmentLength : Nat) (messageBuffer : Bytes) : Except JsError DtlsHandshakeRecord :=
  if ¬ isMessageTypeValid type then .error .rangeError
  else if length > 2 ^ 24 - 1 then .error .rangeError
  else if messageSequence > 2 ^ 16 - 1 then .error .rangeError
  else if fragmentOffset > 2 ^ 24 - 1 then .error .rangeError
  else if fragmentLength > 2 ^ 24 - 1 then .error .rangeError
  else if messageBuffer.length > 2 ^ 24 - 1 then .error .rangeError
  else if messageBuffer.length < fragmentLength then .error .rangeError
  else if length < fragmentOffset + fragmentLength then .error .rangeError
  else .ok ⟨type, length, messageSequence, fragmentOffset, fragmentLength, messageBuffer⟩

/-- `DtlsHandshakeRecord.prototype.toBuffer` (`DtlsHandshakeMessage.js`
lines 180-209): the 12-byte handshake header followed by the message
body. -/
def dtlsHandshakeToBuffer (m : DtlsHandshakeRecord) : Bytes :=
  [m.messageType % 256] ++ writeUIntBE m.length 3 ++ writeUInt16BE m.messageSequence ++
    writeUIntBE m.fragmentOffset 3 ++ writeUIntBE m.fragmentLength 3 ++ m.message

/-- `PskClientKeyExchangeMessage.create`
(`messages/handshake/PskClientKeyExchangeMessage.js` lines 38-59): the
identity must be a Buffer of at most `2^16 - 1` bytes; it is copied into
the message. -/
def pskClientKeyExchangeCreate (identity : Bytes) : Except JsError Bytes :=
  if identity.length > 2 ^ 16 - 1 then .error .rangeError
  else .ok identity

/-- `PskClientKeyExchangeMessage.prototype.toBuffer`
(`messages/handshake/PskClientKeyExchangeMessage.js` lines 110-145):
`identity_len(2) ∥ identity`.  The re-validation of the stored fields
cannot fail for a message built by `create`. -/
def pskClientKeyExchangeToBuffer (identity : Bytes) : Bytes :=
  writeUInt16BE identity.length ++ identity

/-- `FinishedMessage.create` (`messages/handshake/FinishedMessage.js` lines
31-48): the verify data must be exactly 12 bytes. -/
def finishedCreate (verifyData : Bytes) : Except JsError Bytes :=
  if verifyData.length ≠ 12 then .error .rangeError
  else .ok verifyData

/-- `FinishedMessage.prototype.toBuffer`
(`messages/handshake/FinishedMessage.js` lines 50-69): a copy of the
12-byte verify data. -/
def finishedToBuffer (verifyData : Bytes) : Bytes := verifyData

/-- `enums.isChangeCipherSpecTypeValid` (`enums.js`): the only member is
`One = 1`. -/
def isChangeCipherSpecTypeValid (type : Nat) : Bool := type == 1

/-- `DtlsChangeCipherSpecMessage.create`
(`messages/handshake/PskClientKeyExchangeMessage.js`, second document,
lines 174-188). -/
def dtlsChangeCipherSpecCreate (type : Nat) : Except JsError Nat :=
  if ¬ isChangeCipherSpecTypeValid type then .error .rangeError
  else .ok type

/-- `DtlsChangeCipherSpecMessage.prototype.toBuffer`: the single type
byte. -/
def dtlsChangeCipherSpecToBuffer (type : Nat) : Bytes := [type % 256]

/-- `DtlsApplicationDataMessage.prototype.toBuffer`
(`DtlsApplicationDataMessage.js` lines 89-104): a copy of the data. -/
def dtlsApplicationDataToBuffer (data : Bytes) : Bytes := data

/-! ## Crypto service (`src/CryptoUtils.js`) -/

/-- Truncation toward zero (JavaScript `ToIntegerOrInfinity`) of `h / 2`,
where `h` counts exact half-units.  The slice bounds computed by `PRF` are
all multiples of `1/2`, so IEEE-754 arithmetic on them is exact and this
captures it without loss. -/
def jsTruncHalves (h : Int) : Int :=
  if h < 0 then -(((-h).toNat / 2 : Nat) : Int) else ((h.toNat / 2 : Nat) : Int)

/-- The value of the JavaScript float expression
`(secret.length / 2) + (secret.length % 2)` in half-units
(`CryptoUtils.js` line 52). -/
def prfSecretFirstHalfEndHalves (len : Nat) : Int := (len : Int) + 2 * (len % 2)

/-- The value of the JavaScript float expression
`(secret.length / 2) - (secret.length % 2)` in half-units
(`CryptoUtils.js` line 54). -/
def prfSecretSecondHalfStartHalves (len : Nat) : Int := (len : Int) - 2 * (len % 2)

/-- `secret.slice(0, secretEachHalfLength)` (`CryptoUtils.js` line 53): the
`S1` half of the PRF secret. -/
def prfSecretFirstHalf (secret : Bytes) : Bytes :=
  jsSlice secret 0 (jsTruncHalves (prfSecretFirstHalfEndHalves secret.length))

/-- `secret.slice((secret.length / 2) - (secret.length % 2), secret.length)`
(`CryptoUtils.js` line 54): the `S2` half of the PRF secret. -/
def prfSecretSecondHalf (secret : Bytes) : Bytes :=
  jsSlice secret (jsTruncHalves (prfSecretSecondHalfStartHalves secret.length))
    (secret.length : Int)

/-- The `while` loop of `P_hash` (`CryptoUtils.js` lines 79-92): grow the
result by one HMAC output block per iteration until it reaches
`outputLength`.  The fuel bounds the loop; with any HMAC producing
non-empty output (as MD5 and SHA-1 do) it is never exhausted. -/
def pHashLoop (hmac : Bytes → Bytes → Bytes) (secret seed : Bytes) (outputLength : Nat) :
    Nat → Bytes → Bytes → Bytes
  | 0, _, result => result
  | fuel + 1, data, result =>
    if result.length < outputLength then
      let a := hmac secret data
      let out := hmac secret (a ++ seed)
      pHashLoop hmac secret seed outputLength fuel a (result ++ out)
    else result

/-- `P_hash` (`CryptoUtils.js` lines 73-103): HMAC expansion truncated to
`outputLength` bytes. -/
def pHash (hmac : Bytes → Bytes → Bytes) (secret seed : Bytes) (outputLength : Nat) :
    Bytes :=
  (pHashLoop hmac secret seed outputLength (outputLength + 1) seed []).take outputLength

/-- `xorBuffers` (`CryptoUtils.js` lines 105-111): byte-wise XOR over the
length of the first buffer; a missing byte of the second reads as 0 (the
JavaScript `undefined ^ x` coercion). -/
def xorBuffers (buffer1 buffer2 : Bytes) : Bytes :=
  (List.range buffer1.length).map (fun i => Nat.xor (buffer1.getD i 0) (buffer2.getD i 0))

/-- `CryptoUtils.PRF` (`CryptoUtils.js` lines 41-65): split the secret,
run the two `P_hash` streams over `label ∥ seed`, and XOR them. -/
def PRF (C : CryptoPrimitives) (secret label seed : Bytes) (outputLength : Nat) : Bytes :=
  let combinedSeed := label ++ seed
  let secretFirstHalf := prfSecretFirstHalf secret
  let secretSecondHalf := prfSecretSecondHalf secret
  let md5Result := pHash C.hmacMd5 secretFirstHalf combinedSeed outputLength
  let sha1Result := pHash C.hmacSha1 secretSecondHalf combinedSeed outputLength
  xorBuffers md5Result sha1Result

/-- The ASCII bytes of the label `"master secret"`. -/
def labelMasterSecret : Bytes := [109, 97, 115, 116, 101, 114, 32, 115, 101, 99, 114, 101, 116]

/-- The ASCII bytes of the label `"key expansion"`. -/
def labelKeyExpansion : Bytes := [107, 101, 121, 32, 101, 120, 112, 97, 110, 115, 105, 111, 110]

/-- The ASCII bytes of the label `"client finished"`. -/
def labelClientFinished : Bytes :=
  [99, 108, 105, 101, 110, 116, 32, 102, 105, 110, 105, 115, 104, 101, 100]

/-- The ASCII bytes of the label `"server finished"`. -/
def labelServerFinished : Bytes :=
  [115, 101, 114, 118, 101, 114, 32, 102, 105, 110, 105, 115, 104, 101, 100]

/-- `CryptoUtils.createPremasterSecret_FromPresharedKey` (`CryptoUtils.js`
lines 113-121): `u16(|psk|) ∥ 0^{|psk|} ∥ u16(|psk|) ∥ psk`. -/
def createPremasterSecretFromPresharedKey (psk : Bytes) : Bytes :=
  writeUInt16BE psk.length ++ List.replicate psk.length 0 ++ writeUInt16BE psk.length ++ psk

/-! ## Session and handshake engine (`src/unnamed/part_001`, `DtlsSession.js`) -/

/-- A `DtlsConnectionState` (`part_001` lines 104-108). -/
structure DtlsConnectionState where
  bulkEncryptionAlgorithm : BulkEncryptionAlgorithm
  compressionMethod : Nat
  macAlgorithm : MacAlgorithm
deriving DecidableEq, Repr

/-- The initial NULL cipher state (`part_001` lines 88-89). -/
def nullConnectionState : DtlsConnectionState := ⟨.null, 0, .null⟩

/-- The `SecurityParameters` fields used by the modelled handlers. -/
structure SecurityParameters where
  clientRandom : Bytes
  serverRandom : Bytes
  masterSecret : Bytes
  bulkEncryptionAlgorithm : BulkEncryptionAlgorithm
  macAlgorithm : MacAlgorithm
  compressionMethod : Nat
  clientWriteMacSecret : Bytes
  serverWriteMacSecret : Bytes
  clientWriteKey : Bytes
  serverWriteKey : Bytes
deriving DecidableEq, Repr

/-- The mutable `DtlsSession` state (`part_001` lines 61-102) relevant to
the modelled handlers. -/
structure DtlsSession where
  nextOutgoingEpoch : Nat
  nextOutgoingSequenceNumber : Nat
  currentReadState : DtlsConnectionState
  currentWriteState : DtlsConnectionState
  securityParameters : SecurityParameters
  handshakeMessageSequence : Nat
  allHandshakeMessagesAsBuffer : Bytes
  sessionState : Option Nat
  messageQueue : List Bytes
  pskIdentity : Bytes
  pskPassword : Bytes
  sessionId : Option Bytes
deriving DecidableEq, Repr

/-- One outbound record in a handler's emission trace: the plaintext record
handed to `toEncryptedBuffer` together with the `currentWriteState` in
force at that call. -/
structure EmittedRecord where
  plaintext : DtlsRecord
  writeState : DtlsConnectionState
deriving DecidableEq, Repr

/-- `DtlsSession.prototype.sendApplicationData` (`part_001` lines 154-169):
compare `sessionState` against the (undefined) `enums.SessionState.Connected`
member; enqueue when different, otherwise build and transmit an
application-data record and bump the sequence number. -/
def sendApplicationData (s : DtlsSession) (data : Bytes) :
    Except JsError (DtlsSession × List EmittedRecord) :=
  if s.sessionState ≠ SessionState.connectedRead then
    .ok ({ s with messageQueue := s.messageQueue ++ [data] }, [])
  else
    let payload := dtlsApplicationDataToBuffer data
    match dtlsRecordCreateFromPlaintext ProtocolType.applicationData DtlsVersion.dtls10
        s.nextOutgoingEpoch s.nextOutgoingSequenceNumber payload with
    | .error e => .error e
    | .ok r =>
      .ok ({ s with nextOutgoingSequenceNumber := s.nextOutgoingSequenceNumber + 1 },
        [⟨r, s.currentWriteState⟩])

/-- The queue drain of the Finished handler (`part_001` lines 424-427):
`while (messageQueue.length > 0) { data = messageQueue.pop();
sendApplicationData(data); }` — `Array.prototype.pop` removes the LAST
element.  The fuel equals the queue length at entry, which bounds the
loop. -/
def drainMessageQueue : Nat → DtlsSession → Except JsError (DtlsSession × List EmittedRecord)
  | 0, s => .ok (s, [])
  | fuel + 1, s =>
    if s.messageQueue.isEmpty then .ok (s, [])
    else
      let data := s.messageQueue.getLastD []
      let s1 := { s with messageQueue := s.messageQueue.dropLast }
      match sendApplicationData s1 data with
      | .error e => .error e
      | .ok (s2, sent) =>
        match drainMessageQueue fuel s2 with
        | .error e => .error e
        | .ok (s3, rest) => .ok (s3, sent ++ rest)

/-- Node `Buffer.compare(a, b)` (used at `part_001` line 415 for the
Finished verify data): lexicographic comparison that stops at the first
differing byte.  The second component counts the byte positions inspected
before returning. -/
def bufferCompareTrace : Bytes → Bytes → Int × Nat
  | [], [] => (0, 0)
  | [], _ :: _ => (-1, 0)
  | _ :: _, [] => (1, 0)
  | a :: as, b :: bs =>
    if a < b then (-1, 1)
    else if b < a then (1, 1)
    else
      let r := bufferCompareTrace as bs
      (r.1, r.2 + 1)

/-- The server-Finished case of `DtlsSession.prototype.onSocketMessage`
(`part_001` lines 404-430): recompute the verify data over the transcript,
compare with `Buffer.compare`, and on equality transition to `Connected`,
invoke the connect listener (the `Nat` result counts its invocations) and
drain the message queue.  On mismatch the handler returns with no state
change. -/
def onServerFinished (C : CryptoPrimitives) (s : DtlsSession) (receivedVerifyData : Bytes) :
    Except JsError (DtlsSession × List EmittedRecord × Nat) :=
  let serverVerifyDataFirstHalf := C.md5 s.allHandshakeMessagesAsBuffer
  let serverVerifyDataSecondHalf := C.sha1 s.allHandshakeMessagesAsBuffer
  let serverVerifyData :=
    PRF C s.securityParameters.masterSecret labelServerFinished
      (serverVerifyDataFirstHalf ++ serverVerifyDataSecondHalf) 12
  if (bufferCompareTrace serverVerifyData receivedVerifyData).1 ≠ 0 then
    .ok (s, [], 0)
  else
    let s1 := { s with sessionState := SessionState.connectedRead }
    match drainMessageQueue s1.messageQueue.length s1 with
    | .error e => .error e
    | .ok (s2, sent) => .ok (s2, sent, 1)

/-- The cipher suites offered by the client (`part_001` lines 44-48):
AES-256 first. -/
def supportedCipherSuites : List Nat := [0x008D, 0x008C]

/-- The compression methods offered by the client (`part_001` lines
49-51). -/
def supportedCompressionMethods : List Nat := [0]

/-- The HelloVerifyRequest case of `DtlsSession.prototype.onSocketMessage`
(`part_001` lines 233-264): reset the transcript and the handshake message
sequence, then rebuild and re-send the ClientHello with the received
cookie.  The parsed `helloVerifyRequestMessage.cookie` is `none` for a
zero-length cookie and `some c` otherwise.  The returned session reflects
the mutations performed before any thrown exception. -/
def onHelloVerifyRequest (s : DtlsSession) (cookie : Option Bytes) :
    DtlsSession × Except JsError EmittedRecord :=
  let s1 := { s with allHandshakeMessagesAsBuffer := [] }
  let s2 := { s1 with handshakeMessageSequence := 0 }
  match clientHelloCreate DtlsVersion.dtls10 s2.securityParameters.clientRandom s2.sessionId
      cookie supportedCipherSuites supportedCompressionMethods with
  | .error e => (s2, .error e)
  | .ok m =>
    match clientHelloToBuffer m with
    | .error e => (s2, .error e)
    | .ok clientHelloMessageAsBuffer =>
      match dtlsHandshakeCreateFromMessageBuffer MessageType.clientHello
          clientHelloMessageAsBuffer.length s2.handshakeMessageSequence 0
          clientHelloMessageAsBuffer.length clientHelloMessageAsBuffer with
      | .error e => (s2, .error e)
      | .ok handshakeMessage =>
        let handshakeMessageAsBuffer := dtlsHandshakeToBuffer handshakeMessage
        let s3 := { s2 with
          handshakeMessageSequence := s2.handshakeMessageSequence + 1,
          allHandshakeMessagesAsBuffer :=
            s2.allHandshakeMessagesAsBuffer ++ handshakeMessageAsBuffer }
        match dtlsRecordCreateFromPlaintext ProtocolType.handshake DtlsVersion.dtls10
            s3.nextOutgoingEpoch s3.nextOutgoingSequenceNumber handshakeMessageAsBuffer with
        | .error e => (s3, .error e)
        | .ok r =>
          let s4 := { s3 with
            nextOutgoingSequenceNumber := s3.nextOutgoingSequenceNumber + 1,
            sessionState := SessionState.clientHelloSent }
          (s4, .ok ⟨r, s3.currentWriteState⟩)

/-- The record-extraction loop of `DtlsSession.prototype.onSocketMessage`
(`part_001` lines 215-225), dispatch elided: starting at `messageOffset`,
call `fromEncryptedBuffer` and read `.record` off its result.  When the
decode returns `null` that member access dereferences `null` and raises a
`TypeError` (the `if (dtlsRecord == null) break` guard sits after the
access and is unreachable).  The fuel starts at `msg.length + 1`; each
successful decode consumes at least the 13-byte header, so it is never
exhausted. -/
def recordLoopAux (C : CryptoPrimitives) (msg : Bytes) (readState : DtlsConnectionState)
    (serverWriteKey serverWriteMacSecret : Bytes) :
    Nat → Nat → Except JsError (List (DtlsRecord × Nat))
  | 0, _ => .ok []
  | fuel + 1, messageOffset =>
    if messageOffset < msg.length then
      match fromEncryptedBuffer C msg messageOffset readState.bulkEncryptionAlgorithm
          serverWriteKey readState.macAlgorithm serverWriteMacSecret with
      | none => .error .typeError
      | some (r, bytesConsumed) =>
        match recordLoopAux C msg readState serverWriteKey serverWriteMacSecret fuel
            (messageOffset + bytesConsumed) with
        | .error e => .error e
        | .ok rest => .ok ((r, bytesConsumed) :: rest)
    else .ok []

/-- The record loop of `onSocketMessage` run over a whole inbound
datagram. -/
def onSocketMessageRecordLoop (C : CryptoPrimitives) (msg : Bytes)
    (readState : DtlsConnectionState) (serverWriteKey serverWriteMacSecret : Bytes) :
    Except JsError (List (DtlsRecord × Nat)) :=
  recordLoopAux C msg readState serverWriteKey serverWriteMacSecret (msg.length + 1) 0

/-- The key-derivation block of the ServerHelloDone handler (`part_001`
lines 326-363): premaster from the PSK, master secret, key block, and the
four-way split.  The source wipes the premaster with CSPRNG bytes right
after the master-secret derivation; the wipe has no observable effect
here. -/
def deriveSecurityParameters (C : CryptoPrimitives) (sp : SecurityParameters)
    (pskPassword : Bytes) : SecurityParameters :=
  let premasterSecret := createPremasterSecretFromPresharedKey pskPassword
  let masterSecret :=
    PRF C premasterSecret labelMasterSecret (sp.clientRandom ++ sp.serverRandom) 48
  let macSecretLength := getMacAlgorithmHashSize sp.macAlgorithm
  let writeKeyLength := getBulkAlgorithmKeySize sp.bulkEncryptionAlgorithm
  let keyBlockRequiredLength :=
    macSecretLength + macSecretLength + writeKeyLength + writeKeyLength
  let keyBlockAsBuffer :=
    PRF C masterSecret labelKeyExpansion (sp.serverRandom ++ sp.clientRandom)
      keyBlockRequiredLength
  { sp with
    masterSecret := masterSecret,
    clientWriteMacSecret := keyBlockAsBuffer.take macSecretLength,
    serverWriteMacSecret := (keyBlockAsBuffer.drop macSecretLength).take macSecretLength,
    clientWriteKey :=
      (keyBlockAsBuffer.drop (macSecretLength + macSecretLength)).take writeKeyLength,
    serverWriteKey :=
      (keyBlockAsBuffer.drop
        (macSecretLength + macSecretLength + writeKeyLength)).take writeKeyLength }

/-- The ClientKeyExchange emission of the ServerHelloDone handler
(`part_001` lines 309-324): build the message, wrap it in a handshake
header, append it to the transcript, and emit it as a record under the
current (still-NULL) write state, bumping the outgoing sequence number. -/
def serverHelloDoneEmitClientKeyExchange (s1 : DtlsSession) :
    Except JsError (DtlsSession × EmittedRecord) :=
  match pskClientKeyExchangeCreate s1.pskIdentity with
  | .error e => .error e
  | .ok identity =>
    let pskClientKeyExchangeMessageAsBuffer := pskClientKeyExchangeToBuffer identity
    match dtlsHandshakeCreateFromMessageBuffer MessageType.clientKeyExchange
        pskClientKeyExchangeMessageAsBuffer.length s1.handshakeMessageSequence 0
        pskClientKeyExchangeMessageAsBuffer.length pskClientKeyExchangeMessageAsBuffer with
    | .error e => .error e
    | .ok ckeHandshakeMessage =>
      let ckeHandshakeMessageAsBuffer := dtlsHandshakeToBuffer ckeHandshakeMessage
      let s2 := { s1 with
        handshakeMessageSequence := s1.handshakeMessageSequence + 1,
        allHandshakeMessagesAsBuffer :=
          s1.allHandshakeMessagesAsBuffer ++ ckeHandshakeMessageAsBuffer }
      match dtlsRecordCreateFromPlaintext ProtocolType.handshake DtlsVersion.dtls10
          s2.nextOutgoingEpoch s2.nextOutgoingSequenceNumber ckeHandshakeMessageAsBuffer with
      | .error e => .error e
      | .ok ckeRecord =>
        .ok ({ s2 with nextOutgoingSequenceNumber := s2.nextOutgoingSequenceNumber + 1 },
          ⟨ckeRecord, s2.currentWriteState⟩)

/-- The Finished emission of the ServerHelloDone handler (`part_001` lines
377-401): compute the client verify data over the transcript, wrap the
Finished message in a handshake header, append it to the transcript, emit
it under the (just swapped) write state, bump the sequence number, and move
to `FinishedSent`. -/
def serverHelloDoneEmitFinished (C : CryptoPrimitives) (s6 : DtlsSession) :
    Except JsError (DtlsSession × EmittedRecord) :=
  let clientVerifyDataFirstHalf := C.md5 s6.allHandshakeMessagesAsBuffer
  let clientVerifyDataSecondHalf := C.sha1 s6.allHandshakeMessagesAsBuffer
  let clientVerifyData := PRF C s6.securityParameters.masterSecret labelClientFinished
    (clientVerifyDataFirstHalf ++ clientVerifyDataSecondHalf) 12
  match finishedCreate clientVerifyData with
  | .error e => .error e
  | .ok finishedBody =>
    let finishedMessageAsBuffer := finishedToBuffer finishedBody
    match dtlsHandshakeCreateFromMessageBuffer MessageType.finished
        finishedMessageAsBuffer.length s6.handshakeMessageSequence 0
        finishedMessageAsBuffer.length finishedMessageAsBuffer with
    | .error e => .error e
    | .ok finHandshakeMessage =>
      let finHandshakeMessageAsBuffer := dtlsHandshakeToBuffer finHandshakeMessage
      let s7 := { s6 with
        handshakeMessageSequence := s6.handshakeMessageSequence + 1,
        allHandshakeMessagesAsBuffer :=
          s6.allHandshakeMessagesAsBuffer ++ finHandshakeMessageAsBuffer }
      match dtlsRecordCreateFromPlaintext ProtocolType.handshake DtlsVersion.dtls10
          s7.nextOutgoingEpoch s7.nextOutgoingSequenceNumber finHandshakeMessageAsBuffer with
      | .error e => .error e
      | .ok finRecord =>
        .ok ({ s7 with
          nextOutgoingSequenceNumber := s7.nextOutgoingSequenceNumber + 1,
          sessionState := SessionState.finishedSent },
          ⟨finRecord, s7.currentWriteState⟩)

/-- The ServerHelloDone case of `DtlsSession.prototype.onSocketMessage`
(`part_001` lines 298-402): append the inbound message to the transcript,
emit ClientKeyExchange, derive the master secret and key block, emit
ChangeCipherSpec under the still-current write state, bump the epoch and
reset the sequence number, swap the write state to the negotiated
parameters, and emit Finished under the new state.  The CSPRNG draw used
to encrypt the Finished record does not influence the emission trace and
is not a parameter here. -/
def onServerHelloDone (C : CryptoPrimitives) (s : DtlsSession)
    (inboundHandshakeMessageAsBuffer : Bytes) :
    Except JsError (DtlsSession × List EmittedRecord) :=
  let s1 := { s with allHandshakeMessagesAsBuffer :=
    s.allHandshakeMessagesAsBuffer ++ inboundHandshakeMessageAsBuffer }
  match serverHelloDoneEmitClientKeyExchange s1 with
  | .error e => .error e
  | .ok (s3, ckeEmitted) =>
    let sp := deriveSecurityParameters C s3.securityParameters s3.pskPassword
    let s4 := { s3 with securityParameters := sp }
    match dtlsChangeCipherSpecCreate 1 with
    | .error e => .error e
    | .ok changeCipherSpecType =>
      let changeCipherSpecMessageAsBuffer := dtlsChangeCipherSpecToBuffer changeCipherSpecType
      match dtlsRecordCreateFromPlaintext ProtocolType.changeCipherSpec DtlsVersion.dtls10
          s4.nextOutgoingEpoch s4.nextOutgoingSequenceNumber
          changeCipherSpecMessageAsBuffer with
      | .error e => .error e
      | .ok ccsRecord =>
        let ccsEmitted : EmittedRecord := ⟨ccsRecord, s4.currentWriteState⟩
        let s5 := { s4 with
          nextOutgoingEpoch := s4.nextOutgoingEpoch + 1,
          nextOutgoingSequenceNumber := 0 }
        let s6 := { s5 with currentWriteState :=
          ⟨sp.bulkEncryptionAlgorithm, sp.compressionMethod, sp.macAlgorithm⟩ }
        match serverHelloDoneEmitFinished C s6 with
        | .error e => .error e
        | .ok (s8, finEmitted) =>
          .ok (s8, [ckeEmitted, ccsEmitted, finEmitted])

/-! ## Concrete test fixtures

Instantiations of the external crypto primitives and a small session,
used to evaluate the modelled operations on closed inputs. -/

/-- A concrete crypto instantiation: identity block cipher, constant
HMAC/digest outputs of the real algorithms' lengths. -/
def testCrypto : CryptoPrimitives :=
  ⟨fun _ _ x => x, fun _ _ x => x, fun _ _ => List.replicate 20 0,
   fun _ _ => List.replicate 16 0, fun _ => List.replicate 16 0,
   fun _ => List.replicate 20 0⟩

/-- Concrete security parameters after a ServerHello negotiating
AES-128-CBC / HMAC-SHA1. -/
def testSecurityParameters : SecurityParameters :=
  ⟨List.replicate 32 1, List.replicate 32 2, [], .aes128cbc, .sha1, 0, [], [], [], []⟩

/-- A concrete mid-handshake session: epoch 0, outgoing sequence number 5,
NULL read/write states, handshake sequence 2, a 2-byte transcript, and two
queued application payloads. -/
def testSession : DtlsSession :=
  ⟨0, 5, nullConnectionState, nullConnectionState, testSecurityParameters, 2, [9, 9],
   SessionState.clientHelloSent, [[0], [1]], [7], [8], none⟩

/-- The test session after the client Finished was sent. -/
def testFinishedSession : DtlsSession :=
  { testSession with sessionState := SessionState.finishedSent }

/-- The test session in the post-handshake state (the `undefined` value the
source assigns). -/
def testConnectedSession : DtlsSession :=
  { testSession with sessionState := SessionState.connectedRead }

/-- An encrypted-record buffer whose (identity-)decrypted plaintext has bad
CBC padding: the final pad-length byte claims 9 but the padding bytes are
0. -/
def testBadPaddingBuffer : Bytes :=
  [0x17, 0xfe, 0xff, 0, 0, 0, 0, 0, 0, 0, 0, 0, 48] ++ List.replicate 16 0 ++
    (List.replicate 31 0 ++ [9])


/-! ## Helper lemmas -/

theorem writeUIntBE_length (value width : Nat) : (writeUIntBE value width).length = width := by
  induction width generalizing value with
  | zero => rfl
  | succ w ih => simp [writeUIntBE, ih]

theorem drop_len_append (xs ys : Bytes) : (xs ++ ys).drop xs.length = ys := by
  induction xs with
  | nil => rfl
  | cons a as ih => simpa using ih

theorem take_len_append (xs ys : Bytes) : (xs ++ ys).take xs.length = xs := by
  induction xs with
  | nil => rfl
  | cons a as ih => simpa using ih

theorem foldl_writeUIntBE (width value acc : Nat) :
    (writeUIntBE value width).foldl (fun a b => a * 256 + b) acc =
      acc * 256 ^ width + value % 256 ^ width := by
  induction width generalizing value acc with
  | zero => simp [writeUIntBE, Nat.mod_one]
  | succ w ih =>
    rw [writeUIntBE, List.foldl_append, ih]
    have key : value % 256 ^ (w + 1) = value % 256 + 256 * (value / 256 % 256 ^ w) := by
      rw [pow_succ']
      exact Nat.mod_mul
    simp only [List.foldl]
    rw [key, pow_succ]
    ring

theorem readNat_writeUIntBE (value width : Nat) :
    readNat (writeUIntBE value width) = value % 256 ^ width := by
  simpa [readNat] using foldl_writeUIntBE width value 0

theorem readUIntBE_at (pre : Bytes) (value width : Nat) (rest : Bytes) (off : Nat)
    (hoff : pre.length = off) :
    readUIntBE (pre ++ (writeUIntBE value width ++ rest)) off width = value % 256 ^ width := by
  subst hoff
  unfold readUIntBE
  rw [drop_len_append]
  have htake : (writeUIntBE value width ++ rest).take width = writeUIntBE value width := by
    have := take_len_append (writeUIntBE value width) rest
    rwa [writeUIntBE_length] at this
  rw [htake, readNat_writeUIntBE]

theorem getD_replicate_concat (n a j d : Nat) (h : j ≤ n) :
    (List.replicate n a ++ [a]).getD j d = a := by
  induction n generalizing j with
  | zero => interval_cases j <;> rfl
  | succ m ih =>
    match j with
    | 0 => rfl
    | j + 1 =>
      have : (List.replicate (m + 1) a ++ [a]).getD (j + 1) d =
          (List.replicate m a ++ [a]).getD j d := rfl
      rw [this, ih j (by omega)]

theorem getLastD_concat_byte (xs : Bytes) (a d : Nat) : (xs ++ [a]).getLastD d = a := by
  induction xs with
  | nil => rfl
  | cons b bs ih =>
    rw [List.cons_append, List.getLastD_cons]
    simpa using ih

theorem macHashCompareTrace_count (a b : Bytes) (n : Nat) :
    (macHashCompareTrace a b n).2 = n := by
  unfold macHashCompareTrace
  have general : ∀ (l : List Nat) (p : Bool) (c : Nat),
      ((l.foldl (fun acc i => (acc.1 || decide (a.get? i ≠ b.get? i), acc.2 + 1)) (p, c)).2 =
        c + l.length) := by
    intro l
    induction l with
    | nil => intro p c; simp
    | cons x xs ih =>
      intro p c
      rw [List.foldl_cons, ih]
      simp
      omega
  rw [general]
  simp

theorem macHashCompareTrace_self (a : Bytes) (n : Nat) :
    (macHashCompareTrace a a n).1 = false := by
  unfold macHashCompareTrace
  have general : ∀ (l : List Nat) (c : Nat),
      ((l.foldl (fun acc i => (acc.1 || decide (a.get? i ≠ a.get? i), acc.2 + 1)) (false, c)).1 =
        false) := by
    intro l
    induction l with
    | nil => intro c; rfl
    | cons x xs ih => intro c; simpa using ih (c + 1)
  exact general _ 0

theorem bufferCompareTrace_self (a : Bytes) : (bufferCompareTrace a a).1 = 0 := by
  induction a with
  | nil => rfl
  | cons x xs ih => simp [bufferCompareTrace, ih]

theorem dtlsRecordCreateFromPlaintext_ok (type dtlsVersion epoch sequenceNumber : Nat)
    (fragment : Bytes) (ht : isProtocolTypeValid type = true)
    (hv : isDtlsVersionValid dtlsVersion = true) (he : epoch ≤ 2 ^ 16 - 1)
    (hq : sequenceNumber ≤ 2 ^ 48 - 1) (hf : fragment.length ≤ 16384) :
    dtlsRecordCreateFromPlaintext type dtlsVersion epoch sequenceNumber fragment =
      .ok ⟨type, dtlsVersion, epoch, sequenceNumber, fragment⟩ := by
  unfold dtlsRecordCreateFromPlaintext
  rw [if_neg (by simp [ht]), if_neg (by simp [hv]), if_neg (by omega), if_neg (by omega),
    if_neg (by omega)]

theorem getLastD_concat_any {α : Type} (xs : List α) (a d : α) :
    (xs ++ [a]).getLastD d = a := by
  induction xs with
  | nil => rfl
  | cons b bs ih =>
    rw [List.cons_append, List.getLastD_cons]
    simpa using ih

theorem sendApplicationData_queued (s : DtlsSession) (data : Bytes)
    (h : s.sessionState ≠ SessionState.connectedRead) :
    sendApplicationData s data =
      .ok ({ s with messageQueue := s.messageQueue ++ [data] }, []) := by
  unfold sendApplicationData
  rw [if_pos h]

theorem sendApplicationData_connected (s : DtlsSession) (data : Bytes)
    (h : s.sessionState = SessionState.connectedRead) (he : s.nextOutgoingEpoch ≤ 2 ^ 16 - 1)
    (hq : s.nextOutgoingSequenceNumber ≤ 2 ^ 48 - 1) (hd : data.length ≤ 16384) :
    sendApplicationData s data =
      .ok ({ s with nextOutgoingSequenceNumber := s.nextOutgoingSequenceNumber + 1 },
        [⟨⟨ProtocolType.applicationData, DtlsVersion.dtls10, s.nextOutgoingEpoch,
          s.nextOutgoingSequenceNumber, data⟩, s.currentWriteState⟩]) := by
  simp only [sendApplicationData, dtlsApplicationDataToBuffer]
  rw [if_neg (fun hne => hne h)]
  rw [dtlsRecordCreateFromPlaintext_ok _ _ _ _ _ (by decide) (by decide) he hq hd]

theorem drainMessageQueue_lifo : ∀ (n : Nat) (s : DtlsSession),
    s.messageQueue.length ≤ n →
    s.sessionState = SessionState.connectedRead →
    s.nextOutgoingEpoch ≤ 2 ^ 16 - 1 →
    s.nextOutgoingSequenceNumber + s.messageQueue.length ≤ 2 ^ 48 - 1 →
    (∀ d ∈ s.messageQueue, d.length ≤ 16384) →
    ∃ s' sent, drainMessageQueue n s = .ok (s', sent) ∧
      sent.map (fun e => e.plaintext.fragment) = s.messageQueue.reverse ∧
      s'.messageQueue = [] ∧
      s'.sessionState = s.sessionState ∧
      s'.nextOutgoingSequenceNumber =
        s.nextOutgoingSequenceNumber + s.messageQueue.length := by
  intro n
  induction n with
  | zero =>
    intro s hn _ _ _ _
    have hq : s.messageQueue = [] := List.length_eq_zero.mp (Nat.le_zero.mp hn)
    exact ⟨s, [], rfl, by simp [hq], hq, rfl, by simp [hq]⟩
  | succ n ih =>
    intro s hn hstate he hseq hd
    rcases List.eq_nil_or_concat s.messageQueue with hq | ⟨q', d, hq⟩
    · refine ⟨s, [], ?_, by simp [hq], hq, rfl, by simp [hq]⟩
      simp only [drainMessageQueue]
      rw [if_pos (by simp [hq])]
    · rw [List.concat_eq_append] at hq
      have hempty : s.messageQueue.isEmpty = false := by rw [hq]; simp
      have hlast : s.messageQueue.getLastD [] = d := by
        rw [hq]; exact getLastD_concat_any q' d []
      have hlen : s.messageQueue.length = q'.length + 1 := by rw [hq]; simp
      have hsend := sendApplicationData_connected
        ⟨s.nextOutgoingEpoch, s.nextOutgoingSequenceNumber, s.currentReadState,
          s.currentWriteState, s.securityParameters, s.handshakeMessageSequence,
          s.allHandshakeMessagesAsBuffer, s.sessionState, s.messageQueue.dropLast,
          s.pskIdentity, s.pskPassword, s.sessionId⟩ d hstate he
        (by show s.nextOutgoingSequenceNumber ≤ 2 ^ 48 - 1; omega)
        (hd d (by rw [hq]; simp))
      obtain ⟨s', sent, hdr, hmap, hqueue, hst, hsq⟩ :=
        ih ⟨s.nextOutgoingEpoch, s.nextOutgoingSequenceNumber + 1, s.currentReadState,
          s.currentWriteState, s.securityParameters, s.handshakeMessageSequence,
          s.allHandshakeMessagesAsBuffer, s.sessionState, s.messageQueue.dropLast,
          s.pskIdentity, s.pskPassword, s.sessionId⟩
        (by show s.messageQueue.dropLast.length ≤ n; rw [hq]; simp; omega)
        hstate he
        (by show s.nextOutgoingSequenceNumber + 1 + s.messageQueue.dropLast.length ≤
            2 ^ 48 - 1
            rw [hq]; simp; omega)
        (by intro x hx
            refine hd x ?_
            rw [hq]
            rw [hq] at hx
            simp only [List.dropLast_concat] at hx
            simp [hx])
      refine ⟨s', ⟨⟨ProtocolType.applicationData, DtlsVersion.dtls10, s.nextOutgoingEpoch,
        s.nextOutgoingSequenceNumber, d⟩, s.currentWriteState⟩ :: sent, ?_, ?_, hqueue, hst, ?_⟩
      · simp only [drainMessageQueue]
        rw [if_neg (by simp [hempty]), hlast, hsend]
        dsimp only
        rw [hdr]
        rfl
      · simp only [List.map_cons, hmap]
        rw [hq]
        simp
      · rw [hsq]
        show s.nextOutgoingSequenceNumber + 1 + s.messageQueue.dropLast.length =
          s.nextOutgoingSequenceNumber + s.messageQueue.length
        rw [hq]
        simp
        omega

theorem pskClientKeyExchangeCreate_ok (identity : Bytes)
    (h : identity.length ≤ 2 ^ 16 - 1) :
    pskClientKeyExchangeCreate identity = .ok identity := by
  unfold pskClientKeyExchangeCreate
  rw [if_neg (by omega)]

theorem dtlsHandshakeCreateFromMessageBuffer_ok (type length messageSequence fragmentOffset
    fragmentLength : Nat) (messageBuffer : Bytes) (ht : isMessageTypeValid type = true)
    (hl : length ≤ 2 ^ 24 - 1) (hms : messageSequence ≤ 2 ^ 16 - 1)
    (hfo : fragmentOffset ≤ 2 ^ 24 - 1) (hfl : fragmentLength ≤ 2 ^ 24 - 1)
    (hmb : messageBuffer.length ≤ 2 ^ 24 - 1) (hmb2 : fragmentLength ≤ messageBuffer.length)
    (hlen : fragmentOffset + fragmentLength ≤ length) :
    dtlsHandshakeCreateFromMessageBuffer type length messageSequence fragmentOffset
        fragmentLength messageBuffer =
      .ok ⟨type, length, messageSequence, fragmentOffset, fragmentLength, messageBuffer⟩ := by
  unfold dtlsHandshakeCreateFromMessageBuffer
  rw [if_neg (by simp [ht]), if_neg (by omega), if_neg (by omega), if_neg (by omega),
    if_neg (by omega), if_neg (by omega), if_neg (by omega), if_neg (by omega)]

theorem finishedCreate_ok (verifyData : Bytes) (h : verifyData.length = 12) :
    finishedCreate verifyData = .ok verifyData := by
  unfold finishedCreate
  rw [if_neg (by omega)]

theorem pskClientKeyExchangeToBuffer_length (identity : Bytes) :
    (pskClientKeyExchangeToBuffer identity).length = 2 + identity.length := by
  simp [pskClientKeyExchangeToBuffer, writeUInt16BE, writeUIntBE_length]

theorem dtlsHandshakeToBuffer_length (m : DtlsHandshakeRecord) :
    (dtlsHandshakeToBuffer m).length = 12 + m.message.length := by
  simp [dtlsHandshakeToBuffer, writeUInt16BE, writeUIntBE_length]
  omega

theorem pHashLoop_length_ge (hmac : Bytes → Bytes → Bytes) (secret seed : Bytes)
    (outputLength h : Nat) (hh : 0 < h) (hlen : ∀ data, (hmac secret data).length = h) :
    ∀ (fuel : Nat) (data result : Bytes), outputLength ≤ result.length + fuel * h →
      outputLength ≤ (pHashLoop hmac secret seed outputLength fuel data result).length := by
  intro fuel
  induction fuel with
  | zero =>
    intro data result hle
    simpa [pHashLoop] using hle
  | succ n ih =>
    intro data result hle
    by_cases hc : result.length < outputLength
    · rw [pHashLoop, if_pos hc]
      apply ih
      rw [List.length_append, hlen]
      rw [Nat.succ_mul] at hle
      generalize n * h = m at hle ⊢
      omega
    · rw [pHashLoop, if_neg hc]
      omega

theorem pHash_length (hmac : Bytes → Bytes → Bytes) (secret seed : Bytes)
    (outputLength h : Nat) (hh : 0 < h) (hlen : ∀ data, (hmac secret data).length = h) :
    (pHash hmac secret seed outputLength).length = outputLength := by
  unfold pHash
  rw [List.length_take]
  have hge := pHashLoop_length_ge hmac secret seed outputLength h hh hlen
    (outputLength + 1) seed []
    (by
      have : outputLength + 1 ≤ (outputLength + 1) * h := Nat.le_mul_of_pos_right _ hh
      simpa using Nat.le_trans (Nat.le_succ outputLength) this)
  omega

theorem xorBuffers_length (buffer1 buffer2 : Bytes) :
    (xorBuffers buffer1 buffer2).length = buffer1.length := by
  simp [xorBuffers]

theorem PRF_length (C : CryptoPrimitives) (secret label seed : Bytes) (outputLength : Nat)
    (hmd5 : ∀ k m, (C.hmacMd5 k m).length = 16) :
    (PRF C secret label seed outputLength).length = outputLength := by
  simp only [PRF]
  rw [xorBuffers_length]
  exact pHash_length C.hmacMd5 _ _ outputLength 16 (by omega) (fun data => hmd5 _ data)

theorem deriveSecurityParameters_bulk (C : CryptoPrimitives) (sp : SecurityParameters)
    (pskPassword : Bytes) :
    (deriveSecurityParameters C sp pskPassword).bulkEncryptionAlgorithm =
      sp.bulkEncryptionAlgorithm := rfl

theorem deriveSecurityParameters_mac (C : CryptoPrimitives) (sp : SecurityParameters)
    (pskPassword : Bytes) :
    (deriveSecurityParameters C sp pskPassword).macAlgorithm = sp.macAlgorithm := rfl

theorem deriveSecurityParameters_compression (C : CryptoPrimitives) (sp : SecurityParameters)
    (pskPassword : Bytes) :
    (deriveSecurityParameters C sp pskPassword).compressionMethod = sp.compressionMethod := rfl

theorem serverHelloDoneEmitClientKeyExchange_ok (t : DtlsSession)
    (hid : t.pskIdentity.length ≤ 16370) (hhs : t.handshakeMessageSequence ≤ 2 ^ 16 - 1)
    (hep : t.nextOutgoingEpoch ≤ 2 ^ 16 - 1)
    (hsq : t.nextOutgoingSequenceNumber ≤ 2 ^ 48 - 1) :
    serverHelloDoneEmitClientKeyExchange t = .ok
      ({ t with
          handshakeMessageSequence := t.handshakeMessageSequence + 1,
          allHandshakeMessagesAsBuffer := t.allHandshakeMessagesAsBuffer ++
            dtlsHandshakeToBuffer ⟨MessageType.clientKeyExchange,
              (pskClientKeyExchangeToBuffer t.pskIdentity).length, t.handshakeMessageSequence,
              0, (pskClientKeyExchangeToBuffer t.pskIdentity).length,
              pskClientKeyExchangeToBuffer t.pskIdentity⟩,
          nextOutgoingSequenceNumber := t.nextOutgoingSequenceNumber + 1 },
        ⟨⟨ProtocolType.handshake, DtlsVersion.dtls10, t.nextOutgoingEpoch,
          t.nextOutgoingSequenceNumber,
          dtlsHandshakeToBuffer ⟨MessageType.clientKeyExchange,
            (pskClientKeyExchangeToBuffer t.pskIdentity).length, t.handshakeMessageSequence,
            0, (pskClientKeyExchangeToBuffer t.pskIdentity).length,
            pskClientKeyExchangeToBuffer t.pskIdentity⟩⟩,
          t.currentWriteState⟩) := by
  simp only [serverHelloDoneEmitClientKeyExchange]
  rw [pskClientKeyExchangeCreate_ok t.pskIdentity (by omega)]
  dsimp only
  rw [dtlsHandshakeCreateFromMessageBuffer_ok MessageType.clientKeyExchange
    (pskClientKeyExchangeToBuffer t.pskIdentity).length t.handshakeMessageSequence 0
    (pskClientKeyExchangeToBuffer t.pskIdentity).length
    (pskClientKeyExchangeToBuffer t.pskIdentity) (by decide)
    (by rw [pskClientKeyExchangeToBuffer_length]; omega) hhs (by omega)
    (by rw [pskClientKeyExchangeToBuffer_length]; omega)
    (by rw [pskClientKeyExchangeToBuffer_length]; omega) le_rfl (by omega)]
  dsimp only
  rw [dtlsRecordCreateFromPlaintext_ok ProtocolType.handshake DtlsVersion.dtls10
    t.nextOutgoingEpoch t.nextOutgoingSequenceNumber
    (dtlsHandshakeToBuffer ⟨MessageType.clientKeyExchange,
      (pskClientKeyExchangeToBuffer t.pskIdentity).length, t.handshakeMessageSequence, 0,
      (pskClientKeyExchangeToBuffer t.pskIdentity).length,
      pskClientKeyExchangeToBuffer t.pskIdentity⟩) (by decide) (by decide) hep hsq
    (by rw [dtlsHandshakeToBuffer_length]; dsimp only
        rw [pskClientKeyExchangeToBuffer_length]; omega)]

theorem serverHelloDoneEmitFinished_ok (C : CryptoPrimitives) (t : DtlsSession)
    (hmd5 : ∀ k m, (C.hmacMd5 k m).length = 16)
    (hhs : t.handshakeMessageSequence ≤ 2 ^ 16 - 1) (hep : t.nextOutgoingEpoch ≤ 2 ^ 16 - 1)
    (hsq : t.nextOutgoingSequenceNumber ≤ 2 ^ 48 - 1) :
    serverHelloDoneEmitFinished C t = .ok
      ({ t with
          handshakeMessageSequence := t.handshakeMessageSequence + 1,
          allHandshakeMessagesAsBuffer := t.allHandshakeMessagesAsBuffer ++
            dtlsHandshakeToBuffer ⟨MessageType.finished, 12, t.handshakeMessageSequence, 0, 12,
              PRF C t.securityParameters.masterSecret labelClientFinished
                (C.md5 t.allHandshakeMessagesAsBuffer ++ C.sha1 t.allHandshakeMessagesAsBuffer)
                12⟩,
          nextOutgoingSequenceNumber := t.nextOutgoingSequenceNumber + 1,
          sessionState := SessionState.finishedSent },
        ⟨⟨ProtocolType.handshake, DtlsVersion.dtls10, t.nextOutgoingEpoch,
          t.nextOutgoingSequenceNumber,
          dtlsHandshakeToBuffer ⟨MessageType.finished, 12, t.handshakeMessageSequence, 0, 12,
            PRF C t.securityParameters.masterSecret labelClientFinished
              (C.md5 t.allHandshakeMessagesAsBuffer ++ C.sha1 t.allHandshakeMessagesAsBuffer)
              12⟩⟩,
          t.currentWriteState⟩) := by
  have hv12 : (PRF C t.securityParameters.masterSecret labelClientFinished
      (C.md5 t.allHandshakeMessagesAsBuffer ++ C.sha1 t.allHandshakeMessagesAsBuffer)
      12).length = 12 :=
    PRF_length C _ _ _ 12 hmd5
  simp only [serverHelloDoneEmitFinished, finishedToBuffer]
  rw [finishedCreate_ok _ hv12]
  dsimp only [finishedToBuffer]
  rw [hv12]
  rw [dtlsHandshakeCreateFromMessageBuffer_ok MessageType.finished 12
    t.handshakeMessageSequence 0 12
    (PRF C t.securityParameters.masterSecret labelClientFinished
      (C.md5 t.allHandshakeMessagesAsBuffer ++ C.sha1 t.allHandshakeMessagesAsBuffer) 12)
    (by decide) (by omega) hhs (by omega) (by omega) (by rw [hv12]; omega) (by rw [hv12])
    (by omega)]
  dsimp only
  rw [dtlsRecordCreateFromPlaintext_ok ProtocolType.handshake DtlsVersion.dtls10
    t.nextOutgoingEpoch t.nextOutgoingSequenceNumber
    (dtlsHandshakeToBuffer ⟨MessageType.finished, 12, t.handshakeMessageSequence, 0, 12,
      PRF C t.securityParameters.masterSecret labelClientFinished
        (C.md5 t.allHandshakeMessagesAsBuffer ++ C.sha1 t.allHandshakeMessagesAsBuffer) 12⟩)
    (by decide) (by decide) hep hsq
    (by rw [dtlsHandshakeToBuffer_length]; dsimp only; rw [hv12]; omega)]

/-! ## Claim theorems -/

/-- C5: the claim that every message type's `toBuffer` succeeds and
round-trips through `fromBuffer` fails for `DtlsAlertMessage`:
`create(Warning, CloseNotify)` is accepted, but serializing the resulting
message raises a `ReferenceError`, because the body of `toBuffer` writes to
the undeclared identifiers `buffer` and `level` instead of `result` and
`this.level`. -/
theorem alertToBuffer_referenceError :
    dtlsAlertCreate 1 0 = .ok ⟨1, 0⟩ ∧
      dtlsAlertToBuffer ⟨1, 0⟩ = Except.error JsError.referenceError := by
  constructor
  · rfl
  · rfl

/-- C6: the PRF's secret split.  `S1` is the first `⌈|secret|/2⌉` bytes as
the claim states, but for an odd-length secret of length at least 3 the
float expression `(secret.length / 2) - (secret.length % 2)` truncates to
one position before the middle byte, so `S2` is NOT the last
`⌈|secret|/2⌉` bytes: for the 3-byte secret `[1, 2, 3]` the code's `S2` is
the whole secret `[1, 2, 3]` instead of the claimed `[2, 3]` (and for
`[1, 2, 3, 4, 5]` it is `[2, 3, 4, 5]` instead of `[3, 4, 5]`); even
lengths agree with the claim. -/
theorem prf_secret_split_odd :
    prfSecretFirstHalf [1, 2, 3] = [1, 2] ∧
      prfSecretSecondHalf [1, 2, 3] = [1, 2, 3] ∧
      prfSecretSecondHalf [1, 2, 3] ≠ [2, 3] ∧
      prfSecretSecondHalf [1, 2, 3, 4, 5] = [2, 3, 4, 5] ∧
      prfSecretFirstHalf [1, 2, 3, 4] = [1, 2] ∧
      prfSecretSecondHalf [1, 2, 3, 4] = [3, 4] := by
  decide

/-- C3: the record loop of `onSocketMessage` does not absorb a failed
decode: `fromEncryptedBuffer` returns `null` for the one-byte datagram
`[0]` (too short for a record header), and the loop's immediate `.record`
member access on that `null` raises a `TypeError` that escapes the handler
— both for a datagram that fails at its first record and for one whose
valid first record is followed by an undecodable remainder, while a fully
decodable datagram is processed record by record from offset 0. -/
theorem recordLoop_null_decode_typeError :
    fromEncryptedBuffer testCrypto [0] 0 .null [] .null [] = none ∧
      onSocketMessageRecordLoop testCrypto [0] nullConnectionState [] [] =
        Except.error JsError.typeError ∧
      onSocketMessageRecordLoop testCrypto
          ([0x17, 0xfe, 0xff, 0, 0, 0, 0, 0, 0, 0, 0, 0, 1, 65] ++ [0])
          nullConnectionState [] [] = Except.error JsError.typeError ∧
      onSocketMessageRecordLoop testCrypto [0x17, 0xfe, 0xff, 0, 0, 0, 0, 0, 0, 0, 0, 0, 1, 65]
          nullConnectionState [] [] =
        Except.ok [(⟨0x17, 0xfeff, 0, 0, [65]⟩, 14)] := by
  exact ⟨rfl, rfl, rfl, rfl⟩

/-- C9 counterexample: the Finished verify-data comparison is
`Buffer.compare`, which stops at the first differing byte: on two 12-byte
verify-data values that differ in byte 0 it inspects exactly 1 position,
not the full 12 the claim requires of every comparison. -/
theorem finished_compare_early_exit :
    bufferCompareTrace (1 :: List.replicate 11 0) (2 :: List.replicate 11 0) = (-1, 1) ∧
      (1 :: List.replicate 11 0 : Bytes).length = 12 ∧ (1 : Nat) ≠ 12 := by
  refine ⟨?_, by decide, by decide⟩
  decide

/-- C9 (amended): the record-layer MAC comparison iterates all
`macHashLength` positions with an accumulated mismatch flag and no early
exit, whatever the compared bytes; the Finished verify-data comparison
(`Buffer.compare`) instead returns after the first inspected position
whenever the leading bytes differ. -/
theorem mac_compare_full_length :
    (∀ (a b : Bytes) (n : Nat), (macHashCompareTrace a b n).2 = n) ∧
      (∀ (x y : Nat) (as bs : Bytes), x ≠ y →
        (bufferCompareTrace (x :: as) (y :: bs)).2 = 1) := by
  refine ⟨macHashCompareTrace_count, ?_⟩
  intro x y as bs hxy
  unfold bufferCompareTrace
  rcases Nat.lt_or_ge x y with h | h
  · rw [if_pos h]
  · have hyx : y < x := by omega
    rw [if_neg (by omega), if_pos hyx]

/-- C9 witness for `mac_compare_full_length`: the MAC loop inspects all 20
positions on equal and on differing inputs, and `Buffer.compare` stops
after one position on first-byte difference. -/
theorem mac_compare_full_length_witness :
    (macHashCompareTrace (List.replicate 20 3) (List.replicate 20 3) 20).2 = 20 ∧
      (bufferCompareTrace (1 :: List.replicate 11 0) (2 :: List.replicate 11 0)).2 = 1 :=
  ⟨mac_compare_full_length.1 (List.replicate 20 3) (List.replicate 20 3) 20,
    mac_compare_full_length.2 1 2 (List.replicate 11 0) (List.replicate 11 0) (by decide)⟩

/-- C4 counterexample: with the two payloads `[[0], [1]]` queued in
submission order, a successful server Finished drains and transmits them
as `[[1], [0]]` — `Array.prototype.pop` takes the LAST element — so the
claimed first-in-first-out transmission order is false. -/
theorem finished_drain_fifo_counterexample :
    (onServerFinished testCrypto testFinishedSession (List.replicate 12 0)).map
        (fun t => t.2.1.map (fun e => e.plaintext.fragment)) = .ok [[1], [0]] ∧
      testFinishedSession.messageQueue = [[0], [1]] ∧
      ([[1], [0]] : List Bytes) ≠ [[0], [1]] :=
  ⟨rfl, rfl, by decide⟩

/-- C4 (amended): when the server Finished verify data compares equal, the
session transitions to `Connected`, the connect callback fires exactly
once, and the pre-connect application-data queue is drained completely —
but in LIFO (reverse-submission) order, since the drain loop uses
`Array.prototype.pop`: the transmitted payload sequence is the reverse of
the submission sequence. -/
theorem finished_drains_queue_lifo (C : CryptoPrimitives) (s : DtlsSession) (v : Bytes)
    (hv : PRF C s.securityParameters.masterSecret labelServerFinished
        (C.md5 s.allHandshakeMessagesAsBuffer ++ C.sha1 s.allHandshakeMessagesAsBuffer) 12 = v)
    (he : s.nextOutgoingEpoch ≤ 2 ^ 16 - 1)
    (hq : s.nextOutgoingSequenceNumber + s.messageQueue.length ≤ 2 ^ 48 - 1)
    (hd : ∀ d ∈ s.messageQueue, d.length ≤ 16384) :
    ∃ s' sent, onServerFinished C s v = .ok (s', sent, 1) ∧
      sent.map (fun e => e.plaintext.fragment) = s.messageQueue.reverse ∧
      s'.sessionState = SessionState.connectedRead ∧
      s'.messageQueue = [] := by
  obtain ⟨s', sent, hdr, hmap, hqueue, hst, _⟩ :=
    drainMessageQueue_lifo s.messageQueue.length
      ⟨s.nextOutgoingEpoch, s.nextOutgoingSequenceNumber, s.currentReadState,
        s.currentWriteState, s.securityParameters, s.handshakeMessageSequence,
        s.allHandshakeMessagesAsBuffer, SessionState.connectedRead, s.messageQueue,
        s.pskIdentity, s.pskPassword, s.sessionId⟩
      le_rfl rfl he hq hd
  refine ⟨s', sent, ?_, hmap, hst, hqueue⟩
  simp only [onServerFinished]
  rw [hv, if_neg (by simp [bufferCompareTrace_self])]
  rw [hdr]

/-- C4 witness for `finished_drains_queue_lifo`: the concrete session with
queue `[[0], [1]]` reaches `Connected`, fires the callback once, empties
the queue, and transmits the payloads in reverse order. -/
theorem finished_drains_queue_lifo_witness :
    ∃ s' sent, onServerFinished testCrypto testFinishedSession (List.replicate 12 0) =
        .ok (s', sent, 1) ∧
      sent.map (fun e => e.plaintext.fragment) = testFinishedSession.messageQueue.reverse ∧
      s'.sessionState = SessionState.connectedRead ∧
      s'.messageQueue = [] :=
  finished_drains_queue_lifo testCrypto testFinishedSession (List.replicate 12 0) (by decide)
    (by decide) (by decide) (by decide)

/-- C8: for every encrypted record whose decrypted plaintext fails the
padding check, the MAC check, or both, `fromEncryptedBuffer` returns the
single opaque `Invalid` value `null` (`none`): the returned value is the
same in all three failure cases and never distinguishes a MAC failure from
a padding failure. -/
theorem fromEncryptedBuffer_invalid_opaque (C : CryptoPrimitives) (buffer : Bytes)
    (offset : Nat) (alg : BulkEncryptionAlgorithm) (key macSecret : Bytes)
    (macAlg : MacAlgorithm) (halg : alg = .aes128cbc ∨ alg = .aes256cbc)
    (hflag : (verifyCompressedtext C macAlg macSecret (readUIntBE buffer (offset + 3) 2)
        (readUIntBE buffer (offset + 5) 6) (buffer.getD offset 0)
        (readUIntBE buffer (offset + 1) 2)
        (parsedPlaintext C buffer offset alg key)).1 = true ∨
      (verifyCompressedtext C macAlg macSecret (readUIntBE buffer (offset + 3) 2)
        (readUIntBE buffer (offset + 5) 6) (buffer.getD offset 0)
        (readUIntBE buffer (offset + 1) 2)
        (parsedPlaintext C buffer offset alg key)).2.1 = true) :
    fromEncryptedBuffer C buffer offset alg key macAlg macSecret = none := by
  rcases halg with rfl | rfl <;>
  · simp only [fromEncryptedBuffer, parsedPlaintext, getBulkAlgorithmBlockSize,
      reduceCtorEq, if_false, reduceIte, false_or] at hflag ⊢
    split_ifs with h1 h2 h3 h4 h5 h6 h7
    any_goals rfl
    · exfalso
      rw [List.length_take, List.length_drop] at h4
      omega
    · exfalso
      rcases hflag with hp | hm
      · exact h7 hp
      · exact h6 hm

/-- C8 witness for `fromEncryptedBuffer_invalid_opaque`: a concrete
48-byte encrypted record whose plaintext (under the identity test cipher)
has a bad pad-length trailer decodes to `none`. -/
theorem fromEncryptedBuffer_invalid_opaque_witness :
    fromEncryptedBuffer testCrypto testBadPaddingBuffer 0 .aes128cbc [] .sha1 [] = none :=
  fromEncryptedBuffer_invalid_opaque testCrypto testBadPaddingBuffer 0 .aes128cbc [] []
    .sha1 (Or.inl rfl) (by decide)

/-- C1: on a HelloVerifyRequest carrying a non-empty cookie the handler
resets the transcript and the handshake message sequence as claimed, but
the processing then raises a `ReferenceError` instead of completing:
`ClientHelloMessage.create` validates the non-null cookie by evaluating
`enums.getMaximumCookieLength(version)`, and `version` is an undeclared
identifier (the parameter is `dtlsVersion`).  No ClientHello is re-emitted
or appended to the transcript, and the session state is left unchanged. -/
theorem helloVerifyRequest_reemission_raises (s : DtlsSession) (cookie : Bytes)
    (hrand : s.securityParameters.clientRandom.length = 32) (hsid : s.sessionId = none) :
    (onHelloVerifyRequest s (some cookie)).2 = Except.error JsError.referenceError ∧
      (onHelloVerifyRequest s (some cookie)).1.allHandshakeMessagesAsBuffer = [] ∧
      (onHelloVerifyRequest s (some cookie)).1.handshakeMessageSequence = 0 ∧
      (onHelloVerifyRequest s (some cookie)).1.sessionState = s.sessionState := by
  unfold onHelloVerifyRequest clientHelloCreate
  simp [hrand, hsid, isDtlsVersionValid, DtlsVersion.dtls10]

/-- C1 witness for `helloVerifyRequest_reemission_raises`: the concrete
test session receiving the cookie `0xDEADBEEF`. -/
theorem helloVerifyRequest_reemission_raises_witness :
    (onHelloVerifyRequest testSession (some [222, 173, 190, 239])).2 =
        Except.error JsError.referenceError ∧
      (onHelloVerifyRequest testSession
          (some [222, 173, 190, 239])).1.allHandshakeMessagesAsBuffer = [] ∧
      (onHelloVerifyRequest testSession
          (some [222, 173, 190, 239])).1.handshakeMessageSequence = 0 ∧
      (onHelloVerifyRequest testSession (some [222, 173, 190, 239])).1.sessionState =
        testSession.sessionState :=
  helloVerifyRequest_reemission_raises testSession [222, 173, 190, 239] (by decide) rfl

/-- C7: in the ServerHelloDone handler the ChangeCipherSpec record is
built with the pre-transition epoch and sequence number under the
still-NULL write state; with that send the outgoing epoch increases by
exactly 1 and the sequence number resets to 0, the write state becomes the
negotiated (bulk algorithm, NULL compression, MAC algorithm) triple, and
the immediately following Finished record is emitted under that new state
with the incremented epoch and sequence number 0. -/
theorem serverHelloDone_epoch_transition (C : CryptoPrimitives) (s : DtlsSession) (w : Bytes)
    (hw : s.currentWriteState = nullConnectionState)
    (hmd5 : ∀ k m, (C.hmacMd5 k m).length = 16)
    (hid : s.pskIdentity.length ≤ 16370)
    (hhs : s.handshakeMessageSequence + 1 ≤ 2 ^ 16 - 1)
    (hep : s.nextOutgoingEpoch + 1 ≤ 2 ^ 16 - 1)
    (hsq : s.nextOutgoingSequenceNumber + 1 ≤ 2 ^ 48 - 1) :
    ∃ s' cke ccs fin, onServerHelloDone C s w = .ok (s', [cke, ccs, fin]) ∧
      ccs.plaintext.protocolType = ProtocolType.changeCipherSpec ∧
      ccs.plaintext.fragment = [1] ∧
      ccs.plaintext.epoch = s.nextOutgoingEpoch ∧
      ccs.plaintext.sequenceNumber = s.nextOutgoingSequenceNumber + 1 ∧
      ccs.writeState = nullConnectionState ∧
      cke.writeState = nullConnectionState ∧
      fin.plaintext.epoch = s.nextOutgoingEpoch + 1 ∧
      fin.plaintext.sequenceNumber = 0 ∧
      fin.writeState = ⟨s.securityParameters.bulkEncryptionAlgorithm,
        s.securityParameters.compressionMethod, s.securityParameters.macAlgorithm⟩ ∧
      s'.nextOutgoingEpoch = s.nextOutgoingEpoch + 1 ∧
      s'.nextOutgoingSequenceNumber = 1 ∧
      s'.currentWriteState = ⟨s.securityParameters.bulkEncryptionAlgorithm,
        s.securityParameters.compressionMethod, s.securityParameters.macAlgorithm⟩ ∧
      s'.sessionState = SessionState.finishedSent := by
  simp only [onServerHelloDone]
  rw [serverHelloDoneEmitClientKeyExchange_ok]
  · dsimp only
    rw [show dtlsChangeCipherSpecCreate 1 = Except.ok 1 from rfl]
    dsimp only
    rw [show dtlsChangeCipherSpecToBuffer 1 = [1] from rfl]
    rw [dtlsRecordCreateFromPlaintext_ok ProtocolType.changeCipherSpec DtlsVersion.dtls10
      s.nextOutgoingEpoch (s.nextOutgoingSequenceNumber + 1) [1] (by decide) (by decide)
      (by omega) hsq (by decide)]
    dsimp only
    rw [serverHelloDoneEmitFinished_ok C]
    · dsimp only
      refine ⟨_, _, _, _, rfl, rfl, rfl, rfl, rfl, ?_, ?_, rfl, rfl, rfl, rfl, rfl, rfl, rfl⟩
      · exact hw
      · exact hw
    · exact hmd5
    · show s.handshakeMessageSequence + 1 ≤ 2 ^ 16 - 1
      exact hhs
    · show s.nextOutgoingEpoch + 1 ≤ 2 ^ 16 - 1
      exact hep
    · show (0 : Nat) ≤ 2 ^ 48 - 1
      omega
  · show s.pskIdentity.length ≤ 16370
    exact hid
  · show s.handshakeMessageSequence ≤ 2 ^ 16 - 1
    omega
  · show s.nextOutgoingEpoch ≤ 2 ^ 16 - 1
    omega
  · show s.nextOutgoingSequenceNumber ≤ 2 ^ 48 - 1
    omega

/-- C7 witness for `serverHelloDone_epoch_transition`: the concrete test
session processing a ServerHelloDone. -/
theorem serverHelloDone_epoch_transition_witness :
    ∃ s' cke ccs fin,
      onServerHelloDone testCrypto testFinishedSession [5, 5] = .ok (s', [cke, ccs, fin]) ∧
      ccs.plaintext.protocolType = ProtocolType.changeCipherSpec ∧
      ccs.plaintext.fragment = [1] ∧
      ccs.plaintext.epoch = testFinishedSession.nextOutgoingEpoch ∧
      ccs.plaintext.sequenceNumber = testFinishedSession.nextOutgoingSequenceNumber + 1 ∧
      ccs.writeState = nullConnectionState ∧
      cke.writeState = nullConnectionState ∧
      fin.plaintext.epoch = testFinishedSession.nextOutgoingEpoch + 1 ∧
      fin.plaintext.sequenceNumber = 0 ∧
      fin.writeState = ⟨testFinishedSession.securityParameters.bulkEncryptionAlgorithm,
        testFinishedSession.securityParameters.compressionMethod,
        testFinishedSession.securityParameters.macAlgorithm⟩ ∧
      s'.nextOutgoingEpoch = testFinishedSession.nextOutgoingEpoch + 1 ∧
      s'.nextOutgoingSequenceNumber = 1 ∧
      s'.currentWriteState = ⟨testFinishedSession.securityParameters.bulkEncryptionAlgorithm,
        testFinishedSession.securityParameters.compressionMethod,
        testFinishedSession.securityParameters.macAlgorithm⟩ ∧
      s'.sessionState = SessionState.finishedSent :=
  serverHelloDone_epoch_transition testCrypto testFinishedSession [5, 5] rfl
    (fun _ _ => rfl) (by decide) (by decide) (by decide) (by decide)

/-- C10: `sendApplicationData` is gated on `sessionState` being equal to
the `enums.SessionState.Connected` read.  Before the server Finished is
verified the state is one of the three declared members, all different
from that read, so the payload is appended to the queue and nothing is
transmitted; once the Finished handler stores the `Connected` read, every
call builds and transmits one application-data record and leaves the queue
untouched.  The enum declares no `Connected` member: the value compared
against is JavaScript `undefined` (`none`), while the declared states are
0, 1 and 2. -/
theorem sendApplicationData_state_gate :
    (∀ (s : DtlsSession) (data : Bytes), s.sessionState ≠ SessionState.connectedRead →
        sendApplicationData s data =
          .ok ({ s with messageQueue := s.messageQueue ++ [data] }, [])) ∧
      (∀ (s : DtlsSession) (data : Bytes), s.sessionState = SessionState.connectedRead →
        s.nextOutgoingEpoch ≤ 2 ^ 16 - 1 → s.nextOutgoingSequenceNumber ≤ 2 ^ 48 - 1 →
        data.length ≤ 16384 →
        sendApplicationData s data =
          .ok ({ s with nextOutgoingSequenceNumber := s.nextOutgoingSequenceNumber + 1 },
            [⟨⟨ProtocolType.applicationData, DtlsVersion.dtls10, s.nextOutgoingEpoch,
              s.nextOutgoingSequenceNumber, data⟩, s.currentWriteState⟩])) ∧
      SessionState.connectedRead = none ∧
      SessionState.notConnected = some 0 ∧ SessionState.clientHelloSent = some 1 ∧
      SessionState.finishedSent = some 2 := by
  refine ⟨?_, ?_, rfl, rfl, rfl, rfl⟩
  · intro s data h
    unfold sendApplicationData
    rw [if_pos h]
  · intro s data h he hq hd
    simp only [sendApplicationData, dtlsApplicationDataToBuffer]
    rw [if_neg (fun hne => hne h)]
    rw [dtlsRecordCreateFromPlaintext_ok _ _ _ _ _ (by decide) (by decide) he hq hd]

/-- C10 witness for `sendApplicationData_state_gate`: the pre-handshake
test session queues a payload without transmitting; the post-handshake one
transmits it immediately with the queue untouched. -/
theorem sendApplicationData_state_gate_witness :
    sendApplicationData testSession [5] =
        .ok ({ testSession with messageQueue := testSession.messageQueue ++ [[5]] }, []) ∧
      sendApplicationData testConnectedSession [5] =
        .ok ({ testConnectedSession with nextOutgoingSequenceNumber :=
            testConnectedSession.nextOutgoingSequenceNumber + 1 },
          [⟨⟨ProtocolType.applicationData, DtlsVersion.dtls10,
            testConnectedSession.nextOutgoingEpoch,
            testConnectedSession.nextOutgoingSequenceNumber, [5]⟩,
            testConnectedSession.currentWriteState⟩]) :=
  ⟨sendApplicationData_state_gate.1 testSession [5] (by decide),
    sendApplicationData_state_gate.2.1 testConnectedSession [5] rfl (by decide) (by decide)
      (by decide)⟩

/-- Parsing facts about the wire layout emitted by `toEncryptedBuffer` under
a block cipher: each header field reads back (mod its width) and the body
after byte 13 is the IV followed by the ciphertext. -/
theorem encodedRecord_parse (pt ver ep seq tot : Nat) (iv ct B : Bytes)
    (hB : B = [pt] ++ writeUInt16BE ver ++ writeUInt16BE ep ++ writeUIntBE seq 6 ++
      writeUInt16BE tot ++ iv ++ ct) :
    B.length = 13 + iv.length + ct.length ∧
    B.getD 0 0 = pt ∧
    readUIntBE B 1 2 = ver % 256 ^ 2 ∧
    readUIntBE B 3 2 = ep % 256 ^ 2 ∧
    readUIntBE B 5 6 = seq % 256 ^ 6 ∧
    readUIntBE B 11 2 = tot % 256 ^ 2 ∧
    B.drop 13 = iv ++ ct := by
  subst hB
  refine ⟨?_, ?_, ?_, ?_, ?_, ?_, ?_⟩
  · simp only [List.length_append, List.length_cons, List.length_nil, writeUInt16BE,
      writeUIntBE_length]
  · rfl
  · simp only [writeUInt16BE, List.append_assoc]
    exact readUIntBE_at [pt] ver 2 _ 1 rfl
  · simp only [writeUInt16BE, List.append_assoc]
    exact readUIntBE_at ([pt] ++ writeUIntBE ver 2) ep 2 _ 3
      (by simp [writeUIntBE_length])
  · simp only [writeUInt16BE, List.append_assoc]
    exact readUIntBE_at ([pt] ++ (writeUIntBE ver 2 ++ writeUIntBE ep 2)) seq 6 _ 5
      (by simp [writeUIntBE_length])
  · simp only [writeUInt16BE, List.append_assoc]
    exact readUIntBE_at
      ([pt] ++ (writeUIntBE ver 2 ++ (writeUIntBE ep 2 ++ writeUIntBE seq 6))) tot 2 _ 11
      (by simp [writeUIntBE_length])
  · have h13 : ([pt] ++ writeUInt16BE ver ++ writeUInt16BE ep ++ writeUIntBE seq 6 ++
        writeUInt16BE tot).length = 13 := by
      simp [writeUInt16BE, writeUIntBE_length]
    rw [List.append_assoc, ← h13, drop_len_append]

/-- On a plaintext assembled by `buildBufferForEncryption` from a fragment
and its correct 20-byte HMAC-SHA1, `verifyCompressedtext` reports no padding
error, no MAC error, and returns the fragment. -/
theorem verifyCompressedtext_wellformed (C : CryptoPrimitives) (macSecret : Bytes)
    (epoch sequenceNumber protocolType dtlsVersion : Nat) (fragment macH : Bytes)
    (hmac20 : macH.length = 20)
    (hmacval : C.hmacSha1 macSecret
        (buildBufferForMacCalculation epoch sequenceNumber protocolType dtlsVersion
          fragment) = macH) :
    verifyCompressedtext C .sha1 macSecret epoch sequenceNumber protocolType dtlsVersion
        (buildBufferForEncryption fragment macH 16) = (false, false, fragment) := by
  set p := (fragment.length + macH.length + 1 + 16 - 1) / 16 * 16 -
      (fragment.length + macH.length + 1) with hp
  have hple : p ≤ 15 := by rw [hp, hmac20]; omega
  have hpmod : p % 256 = p := Nat.mod_eq_of_lt (by omega)
  have hE : buildBufferForEncryption fragment macH 16 =
      fragment ++ macH ++ List.replicate p p ++ [p] := by
    simp only [buildBufferForEncryption]
    rw [← hp, hpmod]
  rw [hE]
  set E := fragment ++ macH ++ List.replicate p p ++ [p] with hEdef
  have hlenE : E.length = fragment.length + 21 + p := by
    rw [hEdef]
    simp only [List.length_append, List.length_replicate, List.length_cons, List.length_nil,
      hmac20]
    omega
  have hlast : E.getLastD 0 = p := by
    rw [hEdef]
    exact getLastD_concat_any _ p 0
  have hsplit2 : E = (fragment ++ macH) ++ (List.replicate p p ++ [p]) := by
    rw [hEdef, List.append_assoc]
  have hsplitF : E = fragment ++ (macH ++ (List.replicate p p ++ [p])) := by
    rw [hEdef]
    simp [List.append_assoc]
  have hfm : (fragment ++ macH).length = fragment.length + 20 := by simp [hmac20]
  have hpad : ∀ k, k ≤ p → E.getD (E.length - 1 - k) 0 = p := by
    intro k hk
    rw [hlenE, hsplit2, List.getD_append_right (fragment ++ macH)
      (List.replicate p p ++ [p]) 0 (fragment.length + 21 + p - 1 - k) (by rw [hfm]; omega)]
    rw [hfm]
    exact getD_replicate_concat p p _ 0 (by omega)
  have hb1 : (E.length : ℤ) - (p : ℤ) - 1 - ((20 : ℕ) : ℤ) = (fragment.length : ℤ) := by
    rw [hlenE]
    push_cast
    ring
  have hb2 : (E.length : ℤ) - (p : ℤ) - 1 = ((fragment.length + 20 : ℕ) : ℤ) := by
    rw [hlenE]
    push_cast
    ring
  have hidx0 : jsSliceIdx E.length 0 = 0 := by simp [jsSliceIdx]
  have hidxF : jsSliceIdx E.length ((fragment.length : ℕ) : ℤ) = fragment.length := by
    simp only [jsSliceIdx, Int.toNat_natCast]
    rw [if_neg (Int.not_lt.mpr (Int.natCast_nonneg _)), hlenE]
    omega
  have hidxF20 : jsSliceIdx E.length ((fragment.length + 20 : ℕ) : ℤ) =
      fragment.length + 20 := by
    simp only [jsSliceIdx, Int.toNat_natCast]
    rw [if_neg (Int.not_lt.mpr (Int.natCast_nonneg _)), hlenE]
    omega
  have hslice1 : jsSlice E 0 ((fragment.length : ℕ) : ℤ) = fragment := by
    simp only [jsSlice, hidx0, hidxF]
    rw [List.drop_zero, hsplitF, take_len_append]
  have hslice2 : jsSlice E ((fragment.length : ℕ) : ℤ) ((fragment.length + 20 : ℕ) : ℤ) =
      macH := by
    simp only [jsSlice, hidxF, hidxF20]
    rw [hsplit2, ← hfm, take_len_append, drop_len_append]
  simp only [verifyCompressedtext, getMacAlgorithmHashSize]
  rw [hlast, hb1, hb2, hslice1, hslice2, hmacval, macHashCompareTrace_self]
  rw [if_neg (by rw [hlenE]; omega)]
  simp only [Prod.mk.injEq]
  refine ⟨?_, trivial⟩
  rw [List.any_eq_false]
  intro x hx
  simp only [List.mem_map, List.mem_range] at hx
  obtain ⟨k, hk, rfl⟩ := hx
  have hgoal := hpad k (by omega)
  simp only [List.getD_eq_getElem?_getD] at hgoal
  simp [hgoal]

/-- Round-trip of `fromEncryptedBuffer` over the wire image produced by
`toEncryptedBuffer`, for any non-NULL bulk algorithm with 16-byte blocks,
given that decryption inverts encryption under the shared key and IV. -/
theorem fromEncryptedBuffer_roundtrip_aux (C : CryptoPrimitives) (key macSecret iv : Bytes)
    (alg : BulkEncryptionAlgorithm) (r : DtlsRecord) (B : Bytes)
    (hnn : ¬ alg = .null) (hbs : getBulkAlgorithmBlockSize alg = 16)
    (hdec : ∀ x, C.decrypt key iv (C.encrypt key iv x) = x)
    (hlen : ∀ x, (C.encrypt key iv x).length = x.length)
    (hmac20 : (C.hmacSha1 macSecret (buildBufferForMacCalculation r.epoch r.sequenceNumber
        r.protocolType r.dtlsVersion r.fragment)).length = 20)
    (hiv : iv.length = 16)
    (hfrag : r.fragment.length ≤ 2 ^ 14)
    (hpt : r.protocolType < 2 ^ 8) (hver : r.dtlsVersion < 2 ^ 16)
    (hep : r.epoch < 2 ^ 16) (hseq : r.sequenceNumber < 2 ^ 48)
    (hB : B = [r.protocolType % 256] ++ writeUInt16BE r.dtlsVersion ++
      writeUInt16BE r.epoch ++ writeUIntBE r.sequenceNumber 6 ++
      writeUInt16BE ((C.encrypt key iv (buildBufferForEncryption r.fragment
          (C.hmacSha1 macSecret (buildBufferForMacCalculation r.epoch r.sequenceNumber
            r.protocolType r.dtlsVersion r.fragment)) 16)).length + iv.length) ++
      iv ++ C.encrypt key iv (buildBufferForEncryption r.fragment
          (C.hmacSha1 macSecret (buildBufferForMacCalculation r.epoch r.sequenceNumber
            r.protocolType r.dtlsVersion r.fragment)) 16)) :
    fromEncryptedBuffer C B 0 alg key .sha1 macSecret = some (r, B.length) := by
  set macH := C.hmacSha1 macSecret (buildBufferForMacCalculation r.epoch r.sequenceNumber
    r.protocolType r.dtlsVersion r.fragment) with hmacH
  set E := buildBufferForEncryption r.fragment macH 16 with hEb
  set ct := C.encrypt key iv E with hctb
  have hctlen : ct.length = E.length := by rw [hctb]; exact hlen E
  have hEbound : r.fragment.length + 21 ≤ E.length ∧ E.length ≤ r.fragment.length + 36 := by
    rw [hEb]
    simp only [buildBufferForEncryption]
    simp only [List.length_append, List.length_replicate, List.length_cons, List.length_nil,
      hmac20]
    omega
  obtain ⟨hlenB, hgetD, hrdVer, hrdEp, hrdSeq, hrdTot, hdrop⟩ :=
    encodedRecord_parse (r.protocolType % 256) r.dtlsVersion r.epoch r.sequenceNumber
      (ct.length + iv.length) iv ct B hB
  rw [Nat.mod_eq_of_lt (show r.protocolType < 256 by omega)] at hgetD
  have hrdVer' : readUIntBE B 1 2 = r.dtlsVersion := by
    rw [hrdVer]; exact Nat.mod_eq_of_lt (by omega)
  have hrdEp' : readUIntBE B 3 2 = r.epoch := by
    rw [hrdEp]; exact Nat.mod_eq_of_lt (by omega)
  have hrdSeq' : readUIntBE B 5 6 = r.sequenceNumber := by
    rw [hrdSeq]; exact Nat.mod_eq_of_lt (by omega)
  have hrdTot' : readUIntBE B 11 2 = ct.length + iv.length := by
    rw [hrdTot]; exact Nat.mod_eq_of_lt (by omega)
  have hivslice : (B.drop 13).take 16 = iv := by
    rw [hdrop, ← hiv, take_len_append]
  have hctwhole : B.drop 29 = ct := by
    have h2 : (B.drop 13).drop 16 = ct := by rw [hdrop, ← hiv, drop_len_append]
    rw [List.drop_drop] at h2
    norm_num at h2
    exact h2
  have hctslice : (B.drop 29).take (ct.length + iv.length - 16) = ct := by
    rw [hctwhole]
    exact List.take_of_length_le (by omega)
  have hdecE : C.decrypt key iv ct = E := by rw [hctb]; exact hdec E
  have hverify : verifyCompressedtext C .sha1 macSecret r.epoch r.sequenceNumber
      r.protocolType r.dtlsVersion E = (false, false, r.fragment) := by
    rw [hEb]
    exact verifyCompressedtext_wellformed C macSecret r.epoch r.sequenceNumber
      r.protocolType r.dtlsVersion r.fragment macH hmac20 hmacH.symm
  simp only [fromEncryptedBuffer, Nat.reduceAdd, Nat.sub_zero]
  rw [if_neg (by rw [hlenB]; omega)]
  rw [if_neg hnn, hbs, hrdTot']
  rw [if_neg (by rw [hlenB]; omega)]
  rw [if_pos (by omega)]
  rw [hgetD, hrdVer', hrdEp', hrdSeq', hivslice]
  rw [if_neg (by push_neg; exact ⟨hnn, by rw [hiv]; omega⟩)]
  rw [hctslice, hdecE]
  rw [if_neg (by omega)]
  rw [hverify]
  simp only [reduceCtorEq, reduceIte]
  simp only [Option.some.injEq, Prod.mk.injEq]
  exact ⟨trivial, by omega⟩

/-- C2: under either supported AES-CBC cipher suite with HMAC-SHA1, with
read and write states sharing the key, MAC secret and IV, decoding the
encoding of any in-range plaintext record (fragment at most `2^14` bytes,
epoch below `2^16`, sequence number below `2^48`) returns the identical
record together with `bytesConsumed` equal to the encoded buffer's
length. -/
theorem encryptedRecord_roundtrip (C : CryptoPrimitives) (key macSecret iv : Bytes)
    (alg : BulkEncryptionAlgorithm) (r : DtlsRecord)
    (halg : alg = .aes128cbc ∨ alg = .aes256cbc)
    (hdec : ∀ x, C.decrypt key iv (C.encrypt key iv x) = x)
    (hlen : ∀ x, (C.encrypt key iv x).length = x.length)
    (hmac : ∀ k m, (C.hmacSha1 k m).length = 20)
    (hiv : iv.length = 16)
    (hfrag : r.fragment.length ≤ 2 ^ 14)
    (hpt : r.protocolType < 2 ^ 8) (hver : r.dtlsVersion < 2 ^ 16)
    (hep : r.epoch < 2 ^ 16) (hseq : r.sequenceNumber < 2 ^ 48) :
    fromEncryptedBuffer C (toEncryptedBuffer C r alg key .sha1 macSecret iv) 0 alg key
        .sha1 macSecret =
      some (r, (toEncryptedBuffer C r alg key .sha1 macSecret iv).length) := by
  rcases halg with rfl | rfl
  · exact fromEncryptedBuffer_roundtrip_aux C key macSecret iv .aes128cbc r _ nofun rfl
      hdec hlen (hmac _ _) hiv hfrag hpt hver hep hseq rfl
  · exact fromEncryptedBuffer_roundtrip_aux C key macSecret iv .aes256cbc r _ nofun rfl
      hdec hlen (hmac _ _) hiv hfrag hpt hver hep hseq rfl

/-- C2 witness: the round-trip evaluated at a concrete record (fragment
`[5, 6, 7]`, epoch 1, sequence number 2) under the identity test cipher. -/
theorem encryptedRecord_roundtrip_witness :
    fromEncryptedBuffer testCrypto
        (toEncryptedBuffer testCrypto ⟨0x17, 0xfeff, 1, 2, [5, 6, 7]⟩ .aes128cbc [1] .sha1
          [2] (List.replicate 16 0)) 0 .aes128cbc [1] .sha1 [2] =
      some (⟨0x17, 0xfeff, 1, 2, [5, 6, 7]⟩,
        (toEncryptedBuffer testCrypto ⟨0x17, 0xfeff, 1, 2, [5, 6, 7]⟩ .aes128cbc [1] .sha1
          [2] (List.replicate 16 0)).length) :=
  encryptedRecord_roundtrip testCrypto [1] [2] (List.replicate 16 0) .aes128cbc
    ⟨0x17, 0xfeff, 1, 2, [5, 6, 7]⟩ (Or.inl rfl) (fun _ => rfl) (fun _ => rfl)
    (fun _ _ => rfl) rfl (by decide) (by decide) (by decide) (by decide) (by decide)

end SecuredDgram
